import Mathlib

/-!
# Verification of the grblHAL spindle-select plugin and the YL620 VFD driver

A shallow embedding of `src/select.c` (the spindle binding/selection table)
and `src/vfd/yl620.c` (the Yalang YL620 VFD transport state machine),
together with theorems settling the frozen claims about them.

Conventions of the embedding:
* `spindle_id_t` is a signed integer with `-1` as the "unbound" sentinel;
  it is modelled as `Int`.
* `tool_id_t` and the other unsigned counters are modelled as `Nat`
  (the retry counter, a `uint16_t`, wraps modulo 2^16 where it is
  incremented).
* The binding table `spindle_setting[N_SPINDLE_SETTINGS]` is modelled as a
  total function `Nat → spindle_binding_t`; only slots `< 8` are ever read
  or written, mirroring the fixed array of `N_SPINDLE_SETTINGS = 8`.
* The build modelled is the one the claims are about: `N_SYS_SPINDLE == 1`
  and `N_SPINDLE > 1`.
* Compile-time constants that are configuration inputs of the plugin
  (`N_SPINDLE_SELECTABLE`, `N_SPINDLE`, `VFD_RETRIES`, `DEFAULT_SPINDLEn`)
  are parameters of the corresponding definitions.
* G-code word values (C `float`) are modelled as `Option ℚ`: `none` is the
  parser's NaN ("word present, no value"); the values the parser produces
  are finite decimals, so rationals model every case the code distinguishes
  (`isnanf`, `isintf`, order comparisons).
* External effects (modbus sends, alarms, NVS writes) are returned
  explicitly as data so that theorems can speak about them.
-/

/-- One entry of `spindle_setting[]` (`spindle_binding_t` in `select.c`). -/
structure spindle_binding_t where
  spindle_id : Int
  min_tool_id : Nat
deriving DecidableEq, Repr

/-- The binding table: slot index to entry.  Slots `≥ 8` are never used. -/
abbrev BindingTable := Nat → spindle_binding_t

/-- The constant `N_SPINDLE_SETTINGS` of `select.c`. -/
def N_SPINDLE_SETTINGS : Nat := 8

/-- Write one slot of the table. -/
def updSlot (s : BindingTable) (i : Nat) (b : spindle_binding_t) : BindingTable :=
  fun m => if m = i then b else s m

/-- Set `s[i].spindle_id = -1`, keeping `min_tool_id` (the C code clears only the
id field). -/
def clearId (s : BindingTable) (i : Nat) : BindingTable :=
  updSlot s i ⟨-1, (s i).min_tool_id⟩

/-! ## The deduplication/compaction pass of `spindle_settings_load`
(`select.c`, lines 356-372).  The C loop, for `idx = 2 .. 7`, with a cursor
`j` starting at 1:

    for(k = 0; k < idx; k++) {
        if(k < j && s[j].spindle_id == s[k].spindle_id) s[j].spindle_id = -1;
        if(s[idx].spindle_id == s[k].spindle_id) s[idx].spindle_id = -1;
    }
    if(s[j].spindle_id == -1 && s[idx].spindle_id != -1) {
        s[j].spindle_id = s[idx].spindle_id;
        s[j].min_tool_id = s[idx].min_tool_id;
        s[idx].spindle_id = -1;
    }
    if(s[idx].spindle_id == -1 && s[j].spindle_id != -1) j = idx;
-/

/-- Body of the inner `for(k = 0; k < idx; k++)` loop at one `k`. -/
def dedupK (j idx : Nat) (s : BindingTable) (k : Nat) : BindingTable :=
  let s1 := if k < j ∧ (s j).spindle_id = (s k).spindle_id then clearId s j else s
  if (s1 idx).spindle_id = (s1 k).spindle_id then clearId s1 idx else s1

/-- The whole inner loop `for(k = 0; k < idx; k++)`. -/
def dedupInner (s : BindingTable) (j idx : Nat) : BindingTable :=
  (List.range idx).foldl (dedupK j idx) s

/-- One iteration of the outer `for(idx = 2; idx < N_SPINDLE_SETTINGS; idx++)`
loop: inner dedup loop, then the move into the cursor slot, then the cursor
update. -/
def dedupStep (st : BindingTable × Nat) (idx : Nat) : BindingTable × Nat :=
  let s := dedupInner st.1 st.2 idx
  let j := st.2
  let s2 :=
    if (s j).spindle_id = -1 ∧ (s idx).spindle_id ≠ -1 then
      updSlot (updSlot s j ⟨(s idx).spindle_id, (s idx).min_tool_id⟩) idx
        ⟨-1, (s idx).min_tool_id⟩
    else s
  let j2 := if (s2 idx).spindle_id = -1 ∧ (s2 j).spindle_id ≠ -1 then idx else j
  (s2, j2)

/-- The deduplication/compaction pass run by `spindle_settings_load` after a
successful read (outer loop `idx = 2 .. N_SPINDLE_SETTINGS - 1`, cursor `j`
starting at 1). -/
def dedupPass (s : BindingTable) : BindingTable :=
  ((List.range' 2 (N_SPINDLE_SETTINGS - 2)).foldl dedupStep (s, 1)).1

/-! ## The `select_by_tool` scan shared by `spindle_settings_load`
(lines 374-378) and `spindle_settings_save` (lines 279-286):

    idx = N_SPINDLE_SELECTABLE;
    do {
        idx--;
        select_by_tool = spindle_setting[idx].spindle_id != -1 &&
                         spindle_setting[idx].min_tool_id > 0;
    } while(idx && !select_by_tool);
-/

/-- One slot qualifies for tool-driven auto-selection: bound and with a
positive tool threshold. -/
def slotQualifies (s : BindingTable) (i : Nat) : Bool :=
  decide ((s i).spindle_id ≠ -1) && decide (0 < (s i).min_tool_id)

/-- The descending `do { idx--; ... } while(idx && !select_by_tool)` scan,
entered with `idx = N_SPINDLE_SELECTABLE ≥ 1`.  The argument is the value of
`idx` before the decrement. -/
def selectScan (s : BindingTable) : Nat → Bool
  | 0 => false
  | i + 1 =>
    let b := slotQualifies s i
    if i ≠ 0 ∧ b = false then selectScan s i else b

/-! ## min_tool_id clamping in `spindle_settings_load` (lines 387-397):
executed only when `N_SPINDLE_SELECTABLE > 1` and the tool table is
non-empty; a descending do-while over slots `N_SPINDLE_SELECTABLE-1 .. 0`. -/

/-- The clamping do-while; the argument is `idx` before the decrement. -/
def clampLoop (n_tools : Nat) (s : BindingTable) : Nat → BindingTable
  | 0 => s
  | i + 1 =>
    let s1 := if n_tools < (s i).min_tool_id then
        updSlot s i ⟨(s i).spindle_id, n_tools⟩ else s
    if i = 0 then s1 else clampLoop n_tools s1 i

/-! ## `spindle_settings_restore` (lines 310-343) and its callback
`get_default_spindle` (lines 303-307). -/

/-- One registered physical spindle as the registry enumerates it
(`spindle_info_t` of the grblHAL core: its `id` is the registration index,
always non-negative, and `ref_id` the compile-time reference id). -/
structure spindle_info_t where
  id : Nat
  ref_id : Nat
deriving DecidableEq, Repr

/-- The callback `get_default_spindle`: the enumeration callback; called once per registry
entry, it overwrites the slot's id on every entry whose `ref_id` matches, so
the last matching entry wins. -/
def get_default_spindle (ref_id : Nat) (idx : Nat) (s : BindingTable)
    (info : spindle_info_t) : BindingTable :=
  if info.ref_id = ref_id then updSlot s idx ⟨(info.id : Int), (s idx).min_tool_id⟩
  else s

/-- The compile-time reference id configured for a slot:
`DEFAULT_SPINDLE1/2/3` guarded by `N_SPINDLE_SELECTABLE > 1/2/3`; `none`
models both an undefined macro and `SPINDLE_NONE`. -/
def slotRefId (nSel : Nat) (d1 d2 d3 : Option Nat) : Nat → Option Nat
  | 1 => if 1 < nSel then d1 else none
  | 2 => if 2 < nSel then d2 else none
  | 3 => if 3 < nSel then d3 else none
  | _ => none

/-- Body of the restore do-while for one slot `idx`: force the id
(0 for slot 0, unbound otherwise), resolve the configured reference id
against the registry enumeration, then zero the tool threshold. -/
def restoreSlot (registry : List spindle_info_t) (ref : Option Nat) (idx : Nat)
    (s : BindingTable) : BindingTable :=
  let s1 := updSlot s idx ⟨if idx = 0 then 0 else -1, (s idx).min_tool_id⟩
  let s2 := match ref with
    | none => s1
    | some r => registry.foldl (get_default_spindle r idx) s1
  updSlot s2 idx ⟨(s2 idx).spindle_id, 0⟩

/-- The restore do-while over slots `N_SPINDLE_SETTINGS-1 .. 0`; the argument
is `spd.idx` before the decrement. -/
def restoreLoop (registry : List spindle_info_t) (nSel : Nat)
    (d1 d2 d3 : Option Nat) (s : BindingTable) : Nat → BindingTable
  | 0 => s
  | i + 1 =>
    let s1 := restoreSlot registry (slotRefId nSel d1 d2 d3 i) i s
    if i = 0 then s1 else restoreLoop registry nSel d1 d2 d3 s1 i

/-- Model of `spindle_settings_restore`: rebuild the table from compile-time defaults
and persist it.  Returns the new table and the blob written to NVS. -/
def spindle_settings_restore (registry : List spindle_info_t) (nSel : Nat)
    (d1 d2 d3 : Option Nat) (s : BindingTable) : BindingTable × BindingTable :=
  let t := restoreLoop registry nSel d1 d2 d3 s N_SPINDLE_SETTINGS
  (t, t)

/-! ## `spindle_settings_save` (lines 275-301) and `spindle_settings_load`
(lines 347-402), `N_SYS_SPINDLE == 1` build. -/

/-- Model of `spindle_settings_save`: recompute `select_by_tool` by the descending
scan, then write the table to NVS.  Returns the flag and the persisted
blob (the table itself is not changed). -/
def spindle_settings_save (nSel : Nat) (s : BindingTable) :
    Bool × BindingTable :=
  (selectScan s nSel, s)

/-- Model of `spindle_settings_load`: take the stored table (`none` = NVS read
failure, which falls back to `spindle_settings_restore`), force slot 0's id
to the configured default spindle type, run the dedup/compaction pass,
recompute `select_by_tool`, then clamp every `min_tool_id` to the tool-table
size (only when `N_SPINDLE_SELECTABLE > 1` and `n_tools ≠ 0`).  The
activation pass is deferred (queued as a foreground task) and is not part of
the returned state.  Returns the table and the `select_by_tool` flag. -/
def spindle_settings_load (registry : List spindle_info_t) (nSel : Nat)
    (d1 d2 d3 : Option Nat) (default_type : Nat) (n_tools : Nat)
    (current : BindingTable) (stored : Option BindingTable) :
    BindingTable × Bool :=
  let s := match stored with
    | some t => t
    | none => (spindle_settings_restore registry nSel d1 d2 d3 current).1
  let s := updSlot s 0 ⟨(default_type : Int), (s 0).min_tool_id⟩
  let s := dedupPass s
  let flag := selectScan s nSel
  let s := if 1 < nSel ∧ n_tools ≠ 0 then clampLoop n_tools s nSel else s
  (s, flag)

/-! ## Specification-side vocabulary for the dedup claims. -/

/-- Slot `b` holds the first occurrence of its (bound) id in table `s`. -/
def firstOcc (s : BindingTable) (b : Nat) : Prop :=
  (s b).spindle_id ≠ -1 ∧ ∀ a, a < b → (s a).spindle_id ≠ (s b).spindle_id

instance (s : BindingTable) (b : Nat) : Decidable (firstOcc s b) := by
  unfold firstOcc; infer_instance

/-- The bound slots below `n`, in slot order. -/
def boundSlots (s : BindingTable) (n : Nat) : List Nat :=
  (List.range n).filter (fun b => decide ((s b).spindle_id ≠ -1))

/-- The bound entries below `n`, in slot order. -/
def boundEntries (s : BindingTable) (n : Nat) : List spindle_binding_t :=
  (boundSlots s n).map s

/-- The first-occurrence slots below `n`, in slot order. -/
def firstOccSlots (s : BindingTable) (n : Nat) : List Nat :=
  (List.range n).filter (fun b => decide (firstOcc s b))

/-- The first-occurrence entries below `n`, in slot order. -/
def firstOccEntries (s : BindingTable) (n : Nat) : List spindle_binding_t :=
  (firstOccSlots s n).map s

/-- The compaction property asserted by the spec: bound slots (beyond the
always-bound slot 0) sit in front of every unbound slot — no gap. -/
def frontCompacted (s : BindingTable) : Prop :=
  ∀ b, b < N_SPINDLE_SETTINGS → ∀ a, a < b → 1 ≤ a →
    (s a).spindle_id = -1 → (s b).spindle_id = -1

instance (s : BindingTable) : Decidable (frontCompacted s) := by
  unfold frontCompacted; infer_instance

/-! ## Status codes and the M-code gateway (`check`/`validate` of
`select.c`, lines 66-100). -/

/-- The grblHAL status codes this plugin produces. -/
inductive status_code_t where
  | Status_OK
  | Status_GcodeValueWordMissing
  | Status_GcodeValueOutOfRange
  | Status_Unhandled
  | Status_SettingDisabled
  | Status_SettingValueOutOfRange
  | Status_InvalidStatement
deriving DecidableEq, Repr

export status_code_t (Status_OK Status_GcodeValueWordMissing
  Status_GcodeValueOutOfRange Status_Unhandled Status_SettingDisabled
  Status_SettingValueOutOfRange Status_InvalidStatement)

/-- The user M-code carried by a parser block. -/
inductive user_mcode_t where
  | Spindle_Select
  | Other (code : Nat)
deriving DecidableEq, Repr

/-- The slice of `parser_block_t` that `validate` reads and writes.  A word
value is `none` when the word's value is NaN (word present without a value);
present values are the parser's finite decimals, modelled as rationals. -/
structure parser_block_t where
  user_mcode : user_mcode_t
  word_p : Bool
  word_q : Bool
  value_p : Option ℚ
  value_q : Option ℚ
  user_mcode_sync : Bool
deriving DecidableEq, Repr

/-- The test `isintf` of the C code on a non-NaN float value. -/
def isintf (v : ℚ) : Prop := v.den = 1

instance (v : ℚ) : Decidable (isintf v) := by unfold isintf; infer_instance

/-- Model of `validate` (lines 71-100).  `chain` is the previously-registered
`user_mcode.validate` handler (`none` when there was none); it is consulted
only for an unhandled M-code.  Returns the status and the updated block. -/
def validate (chain : Option (parser_block_t → status_code_t × parser_block_t))
    (s : BindingTable) (gc : parser_block_t) : status_code_t × parser_block_t :=
  if gc.user_mcode = user_mcode_t.Spindle_Select then
    let state :=
      if gc.word_p then
        match gc.value_p with
        | none => Status_GcodeValueWordMissing
        | some v =>
          if ¬(isintf v ∧ 0 ≤ v ∧ v ≤ 1 ∧ (s v.num.toNat).spindle_id ≠ -1) then
            Status_GcodeValueOutOfRange
          else Status_OK
      else if gc.word_q then
        match gc.value_q with
        | none => Status_GcodeValueWordMissing
        | some v =>
          if ¬(isintf v ∧ 0 ≤ v ∧ v < (N_SPINDLE_SETTINGS : ℚ) ∧
              (s v.num.toNat).spindle_id ≠ -1) then
            Status_GcodeValueOutOfRange
          else Status_OK
      else Status_GcodeValueWordMissing
    if state = Status_OK ∧ gc.word_p ≠ gc.word_q then
      (Status_OK, { gc with word_p := false, word_q := false, user_mcode_sync := true })
    else (Status_GcodeValueOutOfRange, gc)
  else
    match chain with
    | some f => f gc
    | none => (Status_Unhandled, gc)

/-! ## `set_spindle_type` (lines 168-185): the slot-binding setting.  The
setting id maps to `slot = id - Setting_SpindleEnable0`; settings are only
registered for slots `1 .. 7` (slot 0 has no such setting).  `n_spindle` is
the cached spindle count used as the "Disabled" radio choice,
`spindle_count` the live `spindle_get_count()`. -/
def set_spindle_type (n_spindle spindle_count default_type : Nat)
    (slot : Nat) (int_value : Nat) (s : BindingTable) :
    status_code_t × BindingTable :=
  let spindle_id : Int := if int_value = n_spindle then -1 else (int_value : Int)
  if 0 ≤ spindle_id then
    if spindle_count < 2 then (Status_SettingDisabled, s)
    else if spindle_count ≤ int_value then (Status_SettingValueOutOfRange, s)
    else if spindle_id = (default_type : Int) then (Status_InvalidStatement, s)
    else (Status_OK, updSlot s slot ⟨spindle_id, (s slot).min_tool_id⟩)
  else (Status_OK, updSlot s slot ⟨spindle_id, (s slot).min_tool_id⟩)

/-! ## `spindle_select_get_binding` (lines 421-434): a descending do-while
over slots `N_SPINDLE-1 .. 0`. -/

/-- The scan `do { if(s[--idx].spindle_id == id) return idx; } while(idx);`
entered with `idx = N_SPINDLE`; the argument is `idx` before the decrement. -/
def bindingScan (s : BindingTable) (id : Int) : Nat → Option Nat
  | 0 => none
  | i + 1 => if (s i).spindle_id = id then some i else bindingScan s id i

/-- Model of `spindle_select_get_binding`. -/
def spindle_select_get_binding (nSpindle default_type : Nat)
    (s : BindingTable) (id : Int) : Int :=
  if id = (default_type : Int) then 0
  else if 0 ≤ id then
    match bindingScan s id nSpindle with
    | some i => (i : Int)
    | none => -1
  else -1

/-! # The YL620 VFD driver (`src/vfd/yl620.c`)

State machine slice covered by the claims: `spindleSetRPM`,
`spindleSetState`, `rx_packet`, `rx_exception`.  Transport sends are an
oracle `send : Nat → Bool` giving the outcome of the n-th `modbus_send` of
the call; effects (requests sent, `vfd_failed` calls,
`system_raise_alarm(Alarm_Spindle)` calls) are returned as data.
`spindle_set_at_speed_range` belongs to the grblHAL core (an external
collaborator), so it is a function parameter `sasr`. -/

/-- The in-flight operation tag (`vfd_response_t` of this repository's
shared VFD header, which is not under `src/`): `VFD_Idle` is enumerator 0,
so the C test `(vfd_response_t)context > 0` is `context ≠ VFD_Idle`. -/
inductive vfd_response_t where
  | VFD_Idle
  | VFD_GetRPM
  | VFD_SetRPM
  | VFD_GetMaxRPM
  | VFD_SetStatus
deriving DecidableEq, Repr

/-- The `spindle_state_t` bits used by the driver. -/
structure spindle_state_t where
  on' : Bool
  ccw : Bool
  at_speed : Bool
deriving DecidableEq, Repr

/-- The slice of `spindle_data_t` the driver mutates. -/
structure spindle_data_t where
  rpm_programmed : ℚ
  state_programmed : spindle_state_t
  at_speed_enabled : Bool
deriving DecidableEq, Repr

/-- The driver's mutable state: the global `retry_counter` (`uint16_t`), the
two static reentrancy counters, and the per-drive state. -/
structure YlState where
  retry_counter : Nat
  setrpm_retries : Nat
  setstate_retries : Nat
  vfd_state : spindle_state_t
  spindle_data : spindle_data_t
  rpm_max : Nat
deriving DecidableEq, Repr

/-- One `modbus_send` attempt as the theorems observe it: the operation
context, the 16-bit register payload, and whether the send was blocking. -/
structure sent_request where
  context : vfd_response_t
  payload : Nat
  blocking : Bool
deriving DecidableEq, Repr

/-- The external effects of one driver call. -/
structure vfd_effects where
  sent : List sent_request
  vfd_failed_count : Nat
  alarm_count : Nat
deriving DecidableEq, Repr

/-- No effects. -/
def no_effects : vfd_effects := ⟨[], 0, 0⟩

/-- Encoding `data = ((uint32_t)(rpm) * 10) / vfd_config.vfd_rpm_hz`, truncated to
`uint16_t` on assignment.  The float-to-uint32 conversion truncates toward
zero; the driver only passes non-negative rpm values, for which that is the
floor. -/
def rpm_register_value (rpm_hz : Nat) (rpm : ℚ) : Nat :=
  (Int.toNat ⌊rpm⌋ * 10 / rpm_hz) % 65536

/-- The retry loop shared by `spindleSetRPM` and `spindleSetState`:

    do {
        if(!(ok = modbus_send(...))) retries++;
    } while(!ok && block && retries <= VFD_RETRIES);

`fuel` is structural fuel (entering with `fuel = R + 2`, retries `r = 0`,
the loop can iterate at most `R + 1` times, so the 0-fuel case is never
reached from the entry point); `n` counts attempts already made, `r` is the
static `retries` counter.  Returns `(ok, retries, attempts)`. -/
def send_loop (send : Nat → Bool) (block : Bool) (R : Nat) :
    Nat → Nat → Nat → Bool × Nat × Nat
  | 0, _, r => (false, r, 0)
  | fuel + 1, n, r =>
    let ok := send n
    let r2 := if ok then r else r + 1
    if ok = false ∧ block = true ∧ r2 ≤ R then send_loop send block R fuel (n + 1) r2
    else (ok, r2, n + 1)

/-- Model of `spindleSetRPM` (lines 105-139).  `R` is `VFD_RETRIES`, `rpm_hz` is
`vfd_config.vfd_rpm_hz`, `send` the outcome oracle of this call's sends,
`sasr` the grblHAL core's `spindle_set_at_speed_range`. -/
def spindleSetRPM (R rpm_hz : Nat) (send : Nat → Bool)
    (sasr : spindle_data_t → ℚ → spindle_data_t) (st : YlState)
    (rpm : ℚ) (block : Bool) : YlState × vfd_effects :=
  if st.setrpm_retries ≠ 0 then (st, no_effects)
  else
    let data := rpm_register_value rpm_hz rpm
    let out := send_loop send block R (R + 2) 0 0
    let ok := out.1
    let attempts := out.2.2
    let st2 := { st with spindle_data := sasr st.spindle_data rpm, setrpm_retries := 0 }
    (st2, { sent := List.replicate attempts ⟨vfd_response_t.VFD_SetRPM, data, block⟩,
            vfd_failed_count := if ok then 0 else 1,
            alarm_count := 0 })

/-- Model of `spindleSetState` (lines 149-202).  `sendMode` is the outcome oracle of
the run/direction sends, `sendRpm` of the subsequent speed sends. -/
def spindleSetState (R rpm_hz : Nat) (sendMode sendRpm : Nat → Bool)
    (sasr : spindle_data_t → ℚ → spindle_data_t) (st : YlState)
    (state : spindle_state_t) (rpm : ℚ) : YlState × vfd_effects :=
  if st.setstate_retries ≠ 0 then (st, no_effects)
  else
    let runstop : Nat := if state.on' = false ∨ rpm = 0 then 0x1 else 0x2
    let direction : Nat := if state.ccw then 0x20 else 0x10
    let st1 := if st.vfd_state.ccw ≠ state.ccw then
        { st with spindle_data := { st.spindle_data with rpm_programmed := -1 } }
      else st
    let st2 := { st1 with
      vfd_state := { st1.vfd_state with on' := state.on', ccw := state.ccw },
      spindle_data := { st1.spindle_data with
        state_programmed := { st1.spindle_data.state_programmed with
          on' := state.on', ccw := state.ccw } } }
    let out := send_loop sendMode true R (R + 2) 0 0
    let ok := out.1
    let attempts := out.2.2
    let modeSent :=
      List.replicate attempts (⟨vfd_response_t.VFD_SetStatus, direction ||| runstop, true⟩ : sent_request)
    let st3 := { st2 with setstate_retries := 0 }
    if ok then
      let res := spindleSetRPM R rpm_hz sendRpm sasr st3 rpm true
      (res.1, { sent := modeSent ++ res.2.sent,
                vfd_failed_count := res.2.vfd_failed_count,
                alarm_count := res.2.alarm_count })
    else
      (st3, { sent := modeSent, vfd_failed_count := 1, alarm_count := 0 })

/-- One received reply as `rx_packet` sees it: the reply ADU bytes and the
context tag of the request it answers. -/
structure modbus_reply where
  adu0 : Nat
  adu1 : Nat
  adu2 : Nat
  adu3 : Nat
  adu4 : Nat
  adu5 : Nat
  context : vfd_response_t
deriving DecidableEq, Repr

/-- Model of `rx_packet` (lines 240-271).  `validate_at_speed` is the grblHAL core's
`spindle_validate_at_speed` (external), a function parameter.  Raises
nothing, so only the state is returned. -/
def rx_packet (validate_at_speed : spindle_data_t → ℚ → spindle_data_t)
    (rpm_hz : Nat) (st : YlState) (msg : modbus_reply) : YlState :=
  if msg.adu0 &&& 0x80 = 0 then
    match msg.context with
    | vfd_response_t.VFD_GetRPM =>
      { st with
        spindle_data := validate_at_speed st.spindle_data
          ((((msg.adu3 <<< 8) ||| msg.adu4) * rpm_hz / 10 : Nat) : ℚ),
        retry_counter := 0 }
    | vfd_response_t.VFD_GetMaxRPM =>
      { st with rpm_max := (msg.adu4 <<< 8) ||| msg.adu5, retry_counter := 0 }
    | _ => { st with retry_counter := 0 }
  else st

/-- Model of `rx_exception` (lines 273-308).  `context` is the in-flight operation
tag delivered with the exception (`VFD_Idle` = no recognized context);
`send` is the outcome oracle for the retry send a `VFD_SetRPM` exception
triggers. -/
def rx_exception (R rpm_hz : Nat) (send : Nat → Bool)
    (sasr : spindle_data_t → ℚ → spindle_data_t) (cold_start : Bool)
    (st : YlState) (context : vfd_response_t) : YlState × vfd_effects :=
  if cold_start then (st, { no_effects with vfd_failed_count := 1 })
  else if context ≠ vfd_response_t.VFD_Idle then
    let res :=
      match context with
      | vfd_response_t.VFD_SetRPM =>
        let st1 := { st with retry_counter := (st.retry_counter + 1) % 65536 }
        spindleSetRPM R rpm_hz send sasr st1 (max st1.spindle_data.rpm_programmed 0) false
      | _ => (st, no_effects)
    if R ≤ res.1.retry_counter then
      ({ res.1 with retry_counter := 0 },
       { res.2 with alarm_count := res.2.alarm_count + 1 })
    else res
  else ({ st with retry_counter := 0 }, { no_effects with alarm_count := 1 })

/-! ## Specification-side vocabulary for the restore claim -/

/-- The physical id the registry enumeration leaves in a slot for reference
id `r`: the last enumerated entry whose `ref_id` matches, if any. -/
def resolveRef : List spindle_info_t → Nat → Option Nat
  | [], _ => none
  | info :: rest, r =>
    match resolveRef rest r with
    | some v => some v
    | none => if info.ref_id = r then some info.id else none

/-- The entry `spindle_settings_restore` leaves in slot `idx`. -/
def restoredEntry (registry : List spindle_info_t) (nSel : Nat)
    (d1 d2 d3 : Option Nat) (idx : Nat) : spindle_binding_t :=
  ⟨(match slotRefId nSel d1 d2 d3 idx with
    | none => if idx = 0 then 0 else -1
    | some r =>
      match resolveRef registry r with
      | none => if idx = 0 then 0 else -1
      | some v => (v : Int)), 0⟩

/-! ## Concrete tables for counterexamples -/

/-- A table literal: slots beyond the list are unbound with threshold 0. -/
def tableOfList (l : List spindle_binding_t) : BindingTable :=
  fun i => l.getD i ⟨-1, 0⟩

/-- Input table for the compaction counterexample (slot 0 already forced to
the default type 0): slot 2 duplicates slot 1; slots 4 and 5 hold fresh ids
with a hole at slot 3. -/
def exC1 : BindingTable :=
  tableOfList [⟨0, 10⟩, ⟨1, 11⟩, ⟨1, 12⟩, ⟨-1, 13⟩, ⟨2, 14⟩, ⟨3, 15⟩,
    ⟨-1, 16⟩, ⟨-1, 17⟩]

/-- Table `exC1` after outer iteration `idx = 2` (slot 2's duplicate cleared). -/
def exC1b : BindingTable :=
  tableOfList [⟨0, 10⟩, ⟨1, 11⟩, ⟨-1, 12⟩, ⟨-1, 13⟩, ⟨2, 14⟩, ⟨3, 15⟩,
    ⟨-1, 16⟩, ⟨-1, 17⟩]

/-- Table `exC1` after outer iteration `idx = 4` (slot 4 moved into slot 2). -/
def exC1c : BindingTable :=
  tableOfList [⟨0, 10⟩, ⟨1, 11⟩, ⟨2, 14⟩, ⟨-1, 13⟩, ⟨-1, 14⟩, ⟨3, 15⟩,
    ⟨-1, 16⟩, ⟨-1, 17⟩]

/-- Table `exC1` after outer iteration `idx = 5` (slot 5 moved into slot 4: the
cursor skipped the empty slot 3, leaving a gap). -/
def exC1d : BindingTable :=
  tableOfList [⟨0, 10⟩, ⟨1, 11⟩, ⟨2, 14⟩, ⟨-1, 13⟩, ⟨3, 15⟩, ⟨-1, 15⟩,
    ⟨-1, 16⟩, ⟨-1, 17⟩]

/-! # Proofs

## Loop invariant of the dedup/compaction pass

`DedupInv s₀ s j idx` relates the working table `s` and cursor `j` to the
original table `s₀` on entry to the outer iteration `idx`. -/

/-- Invariant of the outer dedup loop on entry to iteration `idx`. -/
structure DedupInv (s₀ s : BindingTable) (j idx : Nat) : Prop where
  hj1 : 1 ≤ j
  hj2 : j < idx
  hrest : ∀ m, idx ≤ m → s m = s₀ m
  hseq : boundEntries s idx = firstOccEntries s₀ idx
  hgap : (s j).spindle_id = -1 → ∀ m, j < m → m < idx → (s m).spindle_id = -1
  hcoll : ∀ k, k < j → (s j).spindle_id = (s k).spindle_id → (s j).spindle_id = -1

/-! ## Pointwise table lemmas -/

theorem updSlot_self (s : BindingTable) (i : Nat) (b : spindle_binding_t) :
    updSlot s i b i = b := by
  simp [updSlot]

theorem updSlot_ne (s : BindingTable) (i : Nat) (b : spindle_binding_t)
    {m : Nat} (h : m ≠ i) : updSlot s i b m = s m := by
  simp [updSlot, h]

theorem clearId_self_id (s : BindingTable) (i : Nat) :
    ((clearId s i) i).spindle_id = -1 := by
  simp [clearId, updSlot]

theorem clearId_ne (s : BindingTable) (i : Nat) {m : Nat} (h : m ≠ i) :
    clearId s i m = s m := by
  simp [clearId, updSlot, h]

theorem clearId_of_unbound {s : BindingTable} {i : Nat}
    (h : (s i).spindle_id = -1) : clearId s i = s := by
  funext m
  by_cases hm : m = i
  · subst hm
    simp [clearId, updSlot]
    cases hsi : s m with
    | mk a b => simp_all
  · exact clearId_ne s i hm

/-! ## Characterisation of the inner dedup loop -/

theorem dedupInner_aux_nocoll (s : BindingTable) (j idx : Nat) (hj : j < idx)
    (hcoll : ∀ k, k < j → (s j).spindle_id = (s k).spindle_id →
      (s j).spindle_id = -1) :
    ∀ n, n ≤ idx →
      (List.range n).foldl (dedupK j idx) s =
        if ∃ k, k < n ∧ (s idx).spindle_id = (s k).spindle_id then clearId s idx
        else s := by
  intro n
  induction n with
  | zero =>
    intro _
    simp
  | succ n ih =>
    intro hn
    have hn' : n ≤ idx := Nat.le_of_succ_le hn
    have hnidx : n < idx := Nat.lt_of_lt_of_le (Nat.lt_succ_self n) hn
    have hne : n ≠ idx := Nat.ne_of_lt hnidx
    rw [List.range_succ, List.foldl_append, List.foldl_cons, List.foldl_nil,
      ih hn']
    set T := if ∃ k, k < n ∧ (s idx).spindle_id = (s k).spindle_id then
        clearId s idx else s with hT
    have hTj : T j = s j := by
      by_cases hc : ∃ k, k < n ∧ (s idx).spindle_id = (s k).spindle_id
      · rw [hT, if_pos hc]; exact clearId_ne s idx (Nat.ne_of_lt hj)
      · rw [hT, if_neg hc]
    have hTn : T n = s n := by
      by_cases hc : ∃ k, k < n ∧ (s idx).spindle_id = (s k).spindle_id
      · rw [hT, if_pos hc]; exact clearId_ne s idx hne
      · rw [hT, if_neg hc]
    have step1 : (if n < j ∧ (T j).spindle_id = (T n).spindle_id then
        clearId T j else T) = T := by
      by_cases hfire : n < j ∧ (T j).spindle_id = (T n).spindle_id
      · rw [if_pos hfire]
        refine clearId_of_unbound ?_
        rw [hTj]
        rw [hTj, hTn] at hfire
        exact hcoll n hfire.1 hfire.2
      · rw [if_neg hfire]
    rw [dedupK]
    simp only [step1]
    by_cases hc : ∃ k, k < n ∧ (s idx).spindle_id = (s k).spindle_id
    · have hTidx : (T idx).spindle_id = -1 := by
        rw [hT, if_pos hc]; exact clearId_self_id s idx
      have hc' : ∃ k, k < n + 1 ∧ (s idx).spindle_id = (s k).spindle_id := by
        obtain ⟨k, hk, he⟩ := hc
        exact ⟨k, Nat.lt_succ_of_lt hk, he⟩
      by_cases hfin : (T idx).spindle_id = (T n).spindle_id
      · rw [if_pos hfin, if_pos hc']
        rw [hT, if_pos hc]
        exact clearId_of_unbound (by rw [clearId_self_id])
      · rw [if_neg hfin, if_pos hc']
        rw [hT, if_pos hc]
    · have hTs : T = s := by rw [hT, if_neg hc]
      by_cases hfin : (T idx).spindle_id = (T n).spindle_id
      · have hfin' : (s idx).spindle_id = (s n).spindle_id := by
          rw [hTs] at hfin
          exact hfin
        have hc' : ∃ k, k < n + 1 ∧ (s idx).spindle_id = (s k).spindle_id :=
          ⟨n, Nat.lt_succ_self n, hfin'⟩
        rw [if_pos hfin, if_pos hc', hTs]
      · have hc' : ¬∃ k, k < n + 1 ∧ (s idx).spindle_id = (s k).spindle_id := by
          intro hcon
          obtain ⟨k, hk, he⟩ := hcon
          rcases Nat.lt_succ_iff_lt_or_eq.mp hk with hk' | hk'
          · exact hc ⟨k, hk', he⟩
          · subst hk'
            rw [hTs] at hfin
            exact hfin he
        rw [if_neg hfin, if_neg hc', hTs]

theorem dedupInner_spec_nocoll (s : BindingTable) (j idx : Nat) (hj : j < idx)
    (hcoll : ∀ k, k < j → (s j).spindle_id = (s k).spindle_id →
      (s j).spindle_id = -1) :
    dedupInner s j idx =
      if ∃ k, k < idx ∧ (s idx).spindle_id = (s k).spindle_id then clearId s idx
      else s :=
  dedupInner_aux_nocoll s j idx hj hcoll idx (Nat.le_refl idx)

/-! ## List lemmas for the bound-entry and first-occurrence sequences -/

theorem boundEntries_succ (s : BindingTable) (n : Nat) :
    boundEntries s (n + 1) =
      boundEntries s n ++ (if (s n).spindle_id ≠ -1 then [s n] else []) := by
  by_cases h : (s n).spindle_id ≠ -1
  · simp [boundEntries, boundSlots, List.range_succ, List.filter_append, h]
  · simp [boundEntries, boundSlots, List.range_succ, List.filter_append, h]

theorem firstOccEntries_succ (s : BindingTable) (n : Nat) :
    firstOccEntries s (n + 1) =
      firstOccEntries s n ++ (if firstOcc s n then [s n] else []) := by
  by_cases h : firstOcc s n
  · simp [firstOccEntries, firstOccSlots, List.range_succ, List.filter_append, h]
  · simp [firstOccEntries, firstOccSlots, List.range_succ, List.filter_append, h]

theorem boundEntries_lt_ext {s t : BindingTable} (n : Nat)
    (h : ∀ m, m < n → s m = t m) : boundEntries s n = boundEntries t n := by
  induction n with
  | zero => simp [boundEntries, boundSlots]
  | succ n ih =>
    rw [boundEntries_succ, boundEntries_succ,
      ih (fun m hm => h m (Nat.lt_succ_of_lt hm)), h n (Nat.lt_succ_self n)]

theorem boundEntries_of_unbound_range {s : BindingTable} {j n : Nat}
    (hjn : j ≤ n) (h : ∀ m, j ≤ m → m < n → (s m).spindle_id = -1) :
    boundEntries s n = boundEntries s j := by
  induction n with
  | zero =>
    have : j = 0 := Nat.le_zero.mp hjn
    rw [this]
  | succ n ih =>
    rcases Nat.lt_succ_iff_lt_or_eq.mp (Nat.lt_succ_of_le hjn) with hlt | heq
    · have h1 : ∀ m, j ≤ m → m < n → (s m).spindle_id = -1 := fun m hm hm' =>
        h m hm (Nat.lt_succ_of_lt hm')
      have h2 : ¬(s n).spindle_id ≠ -1 := by
        simp only [ne_eq, not_not]
        exact h n (Nat.le_of_lt_succ hlt) (Nat.lt_succ_self n)
      rw [boundEntries_succ, if_neg h2, List.append_nil, ih (Nat.le_of_lt_succ hlt) h1]
    · rw [heq]

theorem mem_boundEntries {s : BindingTable} {n : Nat} {e : spindle_binding_t} :
    e ∈ boundEntries s n ↔ ∃ k, k < n ∧ (s k).spindle_id ≠ -1 ∧ s k = e := by
  simp only [boundEntries, boundSlots, List.mem_map, List.mem_filter,
    List.mem_range, decide_eq_true_eq]
  constructor
  · rintro ⟨k, ⟨hk, hne⟩, he⟩
    exact ⟨k, hk, hne, he⟩
  · rintro ⟨k, hk, hne, he⟩
    exact ⟨k, ⟨hk, hne⟩, he⟩

theorem mem_firstOccEntries {s : BindingTable} {n : Nat} {e : spindle_binding_t} :
    e ∈ firstOccEntries s n ↔ ∃ b, b < n ∧ firstOcc s b ∧ s b = e := by
  simp only [firstOccEntries, firstOccSlots, List.mem_map, List.mem_filter,
    List.mem_range, decide_eq_true_eq]
  constructor
  · rintro ⟨b, ⟨hb, hf⟩, he⟩
    exact ⟨b, hb, hf, he⟩
  · rintro ⟨b, hb, hf, he⟩
    exact ⟨b, ⟨hb, hf⟩, he⟩

theorem exists_firstOcc_of_occ {s : BindingTable} {n : Nat} {X : Int}
    (hX : X ≠ -1) (h : ∃ a, a < n ∧ (s a).spindle_id = X) :
    ∃ b, b < n ∧ firstOcc s b ∧ (s b).spindle_id = X := by
  classical
  have hP : ∃ a, a < n ∧ (s a).spindle_id = X := h
  let b := Nat.find hP
  have hb := Nat.find_spec hP
  refine ⟨b, hb.1, ⟨?_, ?_⟩, hb.2⟩
  · rw [hb.2]; exact hX
  · intro c hc hcon
    have hcP : c < n ∧ (s c).spindle_id = X := ⟨Nat.lt_trans hc hb.1, by rw [← hb.2]; exact hcon⟩
    exact Nat.find_min hP hc hcP

theorem occ_iff_of_seq {s₀ s : BindingTable} {n : Nat}
    (hseq : boundEntries s n = firstOccEntries s₀ n) {X : Int} (hX : X ≠ -1) :
    (∃ k, k < n ∧ (s k).spindle_id = X) ↔ (∃ a, a < n ∧ (s₀ a).spindle_id = X) := by
  constructor
  · rintro ⟨k, hk, he⟩
    have hmem : s k ∈ boundEntries s n :=
      mem_boundEntries.mpr ⟨k, hk, by rw [he]; exact hX, rfl⟩
    rw [hseq] at hmem
    obtain ⟨b, hb, _, hbe⟩ := mem_firstOccEntries.mp hmem
    exact ⟨b, hb, by rw [hbe, he]⟩
  · rintro ⟨a, ha, he⟩
    obtain ⟨b, hb, hf, hbe⟩ := exists_firstOcc_of_occ hX ⟨a, ha, he⟩
    have hmem : s₀ b ∈ firstOccEntries s₀ n :=
      mem_firstOccEntries.mpr ⟨b, hb, hf, rfl⟩
    rw [← hseq] at hmem
    obtain ⟨k, hk, _, hke⟩ := mem_boundEntries.mp hmem
    exact ⟨k, hk, by rw [hke, hbe]⟩

/-! ## Invariant maintenance for one outer dedup iteration -/

theorem eta_binding (e : spindle_binding_t) :
    (⟨e.spindle_id, e.min_tool_id⟩ : spindle_binding_t) = e := rfl

theorem notFirstOcc_of_seq {s₀ s : BindingTable} {idx : Nat}
    (hseq : boundEntries s idx = firstOccEntries s₀ idx)
    (hrest : (s idx).spindle_id = (s₀ idx).spindle_id)
    (hx : (s idx).spindle_id ≠ -1)
    (hC : ∃ k, k < idx ∧ (s idx).spindle_id = (s k).spindle_id) :
    ¬ firstOcc s₀ idx := by
  intro hf
  obtain ⟨k, hk, he⟩ := hC
  have hocc : ∃ k, k < idx ∧ (s k).spindle_id = (s idx).spindle_id :=
    ⟨k, hk, he.symm⟩
  have := (occ_iff_of_seq hseq hx).mp hocc
  obtain ⟨a, ha, hae⟩ := this
  exact hf.2 a ha (by rw [hae, hrest])

theorem firstOcc_of_seq {s₀ s : BindingTable} {idx : Nat}
    (hseq : boundEntries s idx = firstOccEntries s₀ idx)
    (hrest : (s idx).spindle_id = (s₀ idx).spindle_id)
    (hx : (s idx).spindle_id ≠ -1)
    (hC : ¬∃ k, k < idx ∧ (s idx).spindle_id = (s k).spindle_id) :
    firstOcc s₀ idx := by
  constructor
  · rw [← hrest]; exact hx
  · intro a ha hae
    have hocc : ∃ a, a < idx ∧ (s₀ a).spindle_id = (s idx).spindle_id := by
      refine ⟨a, ha, ?_⟩
      rw [hae, hrest]
    have := (occ_iff_of_seq hseq hx).mpr hocc
    obtain ⟨k, hk, hke⟩ := this
    exact hC ⟨k, hk, hke.symm⟩

theorem dedupStep_inv {s₀ s : BindingTable} {j idx : Nat}
    (h : DedupInv s₀ s j idx) :
    DedupInv s₀ (dedupStep (s, j) idx).1 (dedupStep (s, j) idx).2 (idx + 1) := by
  have hjidx : j ≠ idx := Nat.ne_of_lt h.hj2
  have hjlt : j < idx := h.hj2
  have hjge : 1 ≤ j := h.hj1
  have hsx : s idx = s₀ idx := h.hrest idx (Nat.le_refl idx)
  have hspec := dedupInner_spec_nocoll s j idx h.hj2 h.hcoll
  by_cases hx : (s idx).spindle_id = -1
  · -- slot idx arrives unbound: the iteration changes only the cursor
    have hIs : dedupInner s j idx = s := by
      rw [hspec]
      by_cases hC : ∃ k, k < idx ∧ (s idx).spindle_id = (s k).spindle_id
      · rw [if_pos hC, clearId_of_unbound hx]
      · rw [if_neg hC]
    have hnofo : ¬ firstOcc s₀ idx := fun hf => hf.1 (by rw [← hsx]; exact hx)
    have hseq' : boundEntries s (idx + 1) = firstOccEntries s₀ (idx + 1) := by
      rw [boundEntries_succ, firstOccEntries_succ, if_neg (by simpa using hx),
        if_neg hnofo, List.append_nil, List.append_nil]
      exact h.hseq
    by_cases hj0 : (s j).spindle_id = -1
    · have hstep : dedupStep (s, j) idx = (s, j) := by
        simp only [dedupStep, hIs]
        rw [if_neg (by simp [hx]), if_neg (by simp [hj0])]
      rw [hstep]
      dsimp only
      refine ⟨h.hj1, Nat.lt_succ_of_lt h.hj2, ?_, hseq', ?_, h.hcoll⟩
      · intro m hm
        exact h.hrest m (Nat.le_of_succ_le hm)
      · intro hjz m hjm hmi
        rcases Nat.lt_succ_iff_lt_or_eq.mp hmi with hmi' | hmi'
        · exact h.hgap hjz m hjm hmi'
        · rw [hmi']; exact hx
    · have hstep : dedupStep (s, j) idx = (s, idx) := by
        simp only [dedupStep, hIs]
        rw [if_neg (by simp [hx]), if_pos (by exact ⟨hx, hj0⟩)]
      rw [hstep]
      dsimp only
      refine ⟨Nat.le_trans h.hj1 (Nat.le_of_lt h.hj2), Nat.lt_succ_self idx,
        ?_, hseq', ?_, ?_⟩
      · intro m hm
        exact h.hrest m (Nat.le_of_succ_le hm)
      · intro _ m hjm hmi
        omega
      · intro k _ _
        exact hx
  · by_cases hC : ∃ k, k < idx ∧ (s idx).spindle_id = (s k).spindle_id
    · -- a duplicate of a lower slot: slot idx is cleared, no move
      rw [if_pos hC] at hspec
      have hcix : ((clearId s idx) idx).spindle_id = -1 := clearId_self_id s idx
      have hcij : clearId s idx j = s j := clearId_ne s idx hjidx
      have hnofo : ¬ firstOcc s₀ idx :=
        notFirstOcc_of_seq h.hseq (by rw [hsx]) hx hC
      have hseq' : boundEntries (clearId s idx) (idx + 1) =
          firstOccEntries s₀ (idx + 1) := by
        rw [boundEntries_succ, firstOccEntries_succ, if_neg (by simpa using hcix),
          if_neg hnofo, List.append_nil, List.append_nil]
        rw [boundEntries_lt_ext idx
          (fun m hm => clearId_ne s idx (Nat.ne_of_lt hm))]
        exact h.hseq
      by_cases hj0 : (s j).spindle_id = -1
      · have hstep : dedupStep (s, j) idx = (clearId s idx, j) := by
          simp only [dedupStep, hspec]
          rw [if_neg (by simp [hcix]), if_neg (by simp [hcij, hj0])]
        rw [hstep]
        dsimp only
        refine ⟨h.hj1, Nat.lt_succ_of_lt h.hj2, ?_, hseq', ?_, ?_⟩
        · intro m hm
          rw [clearId_ne s idx (by omega)]
          exact h.hrest m (Nat.le_of_succ_le hm)
        · intro hjz m hjm hmi
          rcases Nat.lt_succ_iff_lt_or_eq.mp hmi with hmi' | hmi'
          · rw [clearId_ne s idx (Nat.ne_of_lt hmi')]
            exact h.hgap (by rw [hcij] at hjz; exact hjz) m hjm hmi'
          · rw [hmi']; exact hcix
        · intro k hk
          rw [hcij, clearId_ne s idx (by omega)]
          exact h.hcoll k hk
      · have hstep : dedupStep (s, j) idx = (clearId s idx, idx) := by
          simp only [dedupStep, hspec]
          rw [if_neg (by simp [hcix]), if_pos (by rw [hcij]; exact ⟨hcix, hj0⟩)]
        rw [hstep]
        dsimp only
        refine ⟨Nat.le_trans h.hj1 (Nat.le_of_lt h.hj2), Nat.lt_succ_self idx,
          ?_, hseq', ?_, ?_⟩
        · intro m hm
          rw [clearId_ne s idx (by omega)]
          exact h.hrest m (Nat.le_of_succ_le hm)
        · intro _ m hjm hmi
          omega
        · intro k _ _
          exact hcix
    · -- a fresh id: slot idx survives, possibly moved into the cursor slot
      rw [if_neg hC] at hspec
      have hfo : firstOcc s₀ idx := firstOcc_of_seq h.hseq (by rw [hsx]) hx hC
      by_cases hj0 : (s j).spindle_id = -1
      · -- the move fires and the cursor jumps to idx
        have hstep : dedupStep (s, j) idx =
            (updSlot (updSlot s j ⟨(s idx).spindle_id, (s idx).min_tool_id⟩) idx
              ⟨-1, (s idx).min_tool_id⟩, idx) := by
          simp only [dedupStep, hspec]
          rw [if_pos (by exact ⟨hj0, hx⟩)]
          rw [if_pos ?_]
          constructor
          · rw [updSlot_self]
          · rw [updSlot_ne _ _ _ hjidx, updSlot_self]
            exact hx
        rw [hstep]
        dsimp only
        set e : spindle_binding_t := ⟨(s idx).spindle_id, (s idx).min_tool_id⟩ with he
        set t := updSlot (updSlot s j e) idx ⟨-1, (s idx).min_tool_id⟩ with ht
        have htidx : (t idx).spindle_id = -1 := by rw [ht, updSlot_self]
        have htj : t j = e := by rw [ht, updSlot_ne _ _ _ hjidx, updSlot_self]
        have htm : ∀ m, m ≠ j → m ≠ idx → t m = s m := by
          intro m hmj hmi
          rw [ht, updSlot_ne _ _ _ hmi, updSlot_ne _ _ _ hmj]
        have hseq' : boundEntries t (idx + 1) = firstOccEntries s₀ (idx + 1) := by
          rw [boundEntries_succ, firstOccEntries_succ, if_neg (by simpa using htidx),
            if_pos hfo, List.append_nil]
          have e1 : boundEntries t (idx + 1 - 1) = boundEntries t (j + 1) := by
            have : idx + 1 - 1 = idx := rfl
            rw [this]
            refine boundEntries_of_unbound_range (by omega) ?_
            intro m hm hm'
            rw [htm m (by omega) (by omega)]
            exact h.hgap hj0 m (by omega) hm'
          have : idx + 1 - 1 = idx := rfl
          rw [this] at e1
          rw [e1, boundEntries_succ, if_pos (by rw [htj, he]; simpa using hx), htj]
          have e2 : boundEntries t j = boundEntries s j :=
            boundEntries_lt_ext j (fun m hm => htm m (by omega) (by omega))
          have e3 : boundEntries s idx = boundEntries s j := by
            refine boundEntries_of_unbound_range (by omega) ?_
            intro m hm hm'
            rcases Nat.lt_or_ge j m with hjm | hjm
            · exact h.hgap hj0 m hjm hm'
            · have : m = j := by omega
              rw [this]; exact hj0
          rw [e2, ← e3, h.hseq, he, hsx, eta_binding]
        refine ⟨Nat.le_trans h.hj1 (Nat.le_of_lt h.hj2), Nat.lt_succ_self idx,
          ?_, hseq', ?_, ?_⟩
        · intro m hm
          rw [htm m (by omega) (by omega)]
          exact h.hrest m (Nat.le_of_succ_le hm)
        · intro _ m hjm hmi
          omega
        · intro k _ _
          exact htidx
      · -- no move: the entry stays at idx, cursor unchanged
        have hstep : dedupStep (s, j) idx = (s, j) := by
          simp only [dedupStep, hspec]
          rw [if_neg (by simp [hj0]), if_neg (by simp [hx])]
        rw [hstep]
        have hseq' : boundEntries s (idx + 1) = firstOccEntries s₀ (idx + 1) := by
          rw [boundEntries_succ, firstOccEntries_succ, if_pos (by simpa using hx),
            if_pos hfo, h.hseq, hsx]
        refine ⟨h.hj1, Nat.lt_succ_of_lt h.hj2, ?_, hseq', ?_, h.hcoll⟩
        · intro m hm
          exact h.hrest m (Nat.le_of_succ_le hm)
        · intro hjz
          exact absurd hjz hj0

/-! ## Base case: the first outer iteration (`idx = 2`, cursor `j = 1`) -/

theorem boundEntries_zero (s : BindingTable) : boundEntries s 0 = [] := rfl

theorem firstOccEntries_zero (s : BindingTable) : firstOccEntries s 0 = [] := rfl

theorem firstOcc_zero_iff (s : BindingTable) :
    firstOcc s 0 ↔ (s 0).spindle_id ≠ -1 := by
  constructor
  · exact fun hf => hf.1
  · exact fun h => ⟨h, fun a ha => absurd ha (Nat.not_lt_zero a)⟩

theorem dedup_base_coll {s : BindingTable}
    (hcol : (s 1).spindle_id = (s 0).spindle_id)
    (hne : (s 1).spindle_id ≠ -1) :
    DedupInv s (dedupStep (s, 1) 2).1 (dedupStep (s, 1) 2).2 3 := by
  have h0ne : (s 0).spindle_id ≠ -1 := by rw [← hcol]; exact hne
  have hA2 : clearId s 1 2 = s 2 := clearId_ne s 1 (by omega)
  have hA0 : clearId s 1 0 = s 0 := clearId_ne s 1 (by omega)
  have hA1 : (clearId s 1 1).spindle_id = -1 := clearId_self_id s 1
  have hrange2 : List.range 2 = [0, 1] := rfl
  have hfo0 : firstOcc s 0 := (firstOcc_zero_iff s).mpr h0ne
  have hnfo1 : ¬ firstOcc s 1 := fun hf => hf.2 0 Nat.zero_lt_one hcol.symm
  have hfire : (if 0 < 1 ∧ (s 1).spindle_id = (s 0).spindle_id then clearId s 1
      else s) = clearId s 1 :=
    if_pos ⟨Nat.zero_lt_one, hcol⟩
  by_cases c20 : (s 2).spindle_id = (s 0).spindle_id
  · -- slot 2 also duplicates slot 0: both slot 1 and slot 2 end cleared
    have hnfo2 : ¬ firstOcc s 2 := fun hf => hf.2 0 (by omega) c20.symm
    have e0 : dedupK 1 2 s 0 = clearId (clearId s 1) 2 := by
      simp only [dedupK, hfire]
      rw [hA2, hA0, if_pos c20]
    set X := clearId (clearId s 1) 2 with hX
    have hX2 : (X 2).spindle_id = -1 := clearId_self_id (clearId s 1) 2
    have hX1 : (X 1).spindle_id = -1 := by
      rw [hX, clearId_ne (clearId s 1) 2 (by omega)]; exact hA1
    have hX0 : X 0 = s 0 := by
      rw [hX, clearId_ne (clearId s 1) 2 (by omega)]; exact hA0
    have e1 : dedupK 1 2 X 1 = X := by
      simp only [dedupK]
      norm_num
      intro _
      exact clearId_of_unbound hX2
    have hinner : dedupInner s 1 2 = X := by
      simp only [dedupInner, hrange2, List.foldl_cons, List.foldl_nil, e0, e1]
    have hstep : dedupStep (s, 1) 2 = (X, 1) := by
      simp only [dedupStep]
      rw [hinner,
        if_neg (show ¬((X 1).spindle_id = -1 ∧ (X 2).spindle_id ≠ -1) from
          fun hh => hh.2 hX2),
        if_neg (show ¬((X 2).spindle_id = -1 ∧ (X 1).spindle_id ≠ -1) from
          fun hh => hh.2 hX1)]
    rw [hstep]
    dsimp only
    refine ⟨Nat.le_refl 1, by omega, ?_, ?_, ?_, ?_⟩
    · intro m hm
      rw [hX, clearId_ne _ _ (by omega), clearId_ne _ _ (by omega)]
    · rw [boundEntries_succ, boundEntries_succ, boundEntries_succ,
        boundEntries_zero, firstOccEntries_succ, firstOccEntries_succ,
        firstOccEntries_succ, firstOccEntries_zero,
        if_neg (show ¬(X 2).spindle_id ≠ -1 from fun hh => hh hX2),
        if_neg (show ¬(X 1).spindle_id ≠ -1 from fun hh => hh hX1),
        if_pos (show (X 0).spindle_id ≠ -1 from by rw [hX0]; exact h0ne),
        if_pos hfo0, if_neg hnfo1, if_neg hnfo2, hX0]
    · intro _ m h1m hm3
      have hm2 : m = 2 := by omega
      rw [hm2]; exact hX2
    · intro k hk _
      exact hX1
  · by_cases c2m : (s 2).spindle_id = -1
    · -- slot 2 arrives unbound: only slot 1 is cleared
      have hnfo2 : ¬ firstOcc s 2 := fun hf => hf.1 c2m
      have e0 : dedupK 1 2 s 0 = clearId s 1 := by
        simp only [dedupK, hfire]
        rw [hA2, hA0, if_neg c20]
      set X := clearId s 1 with hX
      have hX2 : (X 2).spindle_id = -1 := by rw [hA2]; exact c2m
      have hX1 : (X 1).spindle_id = -1 := hA1
      have hX0 : X 0 = s 0 := hA0
      have e1 : dedupK 1 2 X 1 = X := by
        simp only [dedupK]
        norm_num
        intro _
        exact clearId_of_unbound hX2
      have hinner : dedupInner s 1 2 = X := by
        simp only [dedupInner, hrange2, List.foldl_cons, List.foldl_nil, e0, e1]
      have hstep : dedupStep (s, 1) 2 = (X, 1) := by
        simp only [dedupStep]
        rw [hinner,
          if_neg (show ¬((X 1).spindle_id = -1 ∧ (X 2).spindle_id ≠ -1) from
            fun hh => hh.2 hX2),
          if_neg (show ¬((X 2).spindle_id = -1 ∧ (X 1).spindle_id ≠ -1) from
            fun hh => hh.2 hX1)]
      rw [hstep]
      dsimp only
      refine ⟨Nat.le_refl 1, by omega, ?_, ?_, ?_, ?_⟩
      · intro m hm
        rw [hX, clearId_ne _ _ (by omega)]
      · rw [boundEntries_succ, boundEntries_succ, boundEntries_succ,
          boundEntries_zero, firstOccEntries_succ, firstOccEntries_succ,
          firstOccEntries_succ, firstOccEntries_zero,
          if_neg (show ¬(X 2).spindle_id ≠ -1 from fun hh => hh hX2),
          if_neg (show ¬(X 1).spindle_id ≠ -1 from fun hh => hh hX1),
          if_pos (show (X 0).spindle_id ≠ -1 from by rw [hX0]; exact h0ne),
          if_pos hfo0, if_neg hnfo1, if_neg hnfo2, hX0]
      · intro _ m h1m hm3
        have hm2 : m = 2 := by omega
        rw [hm2]; exact hX2
      · intro k hk _
        exact hX1
    · -- slot 2 holds a fresh id: it moves into the cleared slot 1
      have hfo2 : firstOcc s 2 := by
        refine ⟨c2m, ?_⟩
        intro a ha hae
        have ha01 : a = 0 ∨ a = 1 := by omega
        rcases ha01 with h | h
        · subst h; exact c20 hae.symm
        · subst h
          rw [hcol] at hae
          exact c20 hae.symm
      have e0 : dedupK 1 2 s 0 = clearId s 1 := by
        simp only [dedupK, hfire]
        rw [hA2, hA0, if_neg c20]
      have e1 : dedupK 1 2 (clearId s 1) 1 = clearId s 1 := by
        simp only [dedupK]
        norm_num
        intro h
        rw [hA2, hA1] at h
        exact absurd h c2m
      have hinner : dedupInner s 1 2 = clearId s 1 := by
        simp only [dedupInner, hrange2, List.foldl_cons, List.foldl_nil, e0, e1]
      have hstep : dedupStep (s, 1) 2 =
          (updSlot (updSlot (clearId s 1) 1
            ⟨(clearId s 1 2).spindle_id, (clearId s 1 2).min_tool_id⟩) 2
            ⟨-1, (clearId s 1 2).min_tool_id⟩, 2) := by
        simp only [dedupStep]
        rw [hinner,
          if_pos (show (clearId s 1 1).spindle_id = -1 ∧
              (clearId s 1 2).spindle_id ≠ -1 from
            ⟨hA1, by rw [hA2]; exact c2m⟩)]
        rw [if_pos ?_]
        constructor
        · rw [updSlot_self]
        · rw [updSlot_ne _ _ _ (by omega), updSlot_self, hA2]
          exact c2m
      rw [hstep]
      dsimp only
      set t := updSlot (updSlot (clearId s 1) 1
        ⟨(clearId s 1 2).spindle_id, (clearId s 1 2).min_tool_id⟩) 2
        ⟨-1, (clearId s 1 2).min_tool_id⟩ with ht
      have ht2 : (t 2).spindle_id = -1 := by rw [ht, updSlot_self]
      have ht1 : t 1 = s 2 := by
        rw [ht, updSlot_ne _ _ _ (by omega), updSlot_self, hA2, eta_binding]
      have ht0 : t 0 = s 0 := by
        rw [ht, updSlot_ne _ _ _ (by omega), updSlot_ne _ _ _ (by omega), hA0]
      have htm : ∀ m, 3 ≤ m → t m = s m := by
        intro m hm
        rw [ht, updSlot_ne _ _ _ (by omega), updSlot_ne _ _ _ (by omega),
          clearId_ne _ _ (by omega)]
      refine ⟨by omega, by omega, htm, ?_, ?_, ?_⟩
      · rw [boundEntries_succ, boundEntries_succ, boundEntries_succ,
          boundEntries_zero, firstOccEntries_succ, firstOccEntries_succ,
          firstOccEntries_succ, firstOccEntries_zero,
          if_neg (show ¬(t 2).spindle_id ≠ -1 from fun hh => hh ht2),
          if_pos (show (t 1).spindle_id ≠ -1 from by rw [ht1]; exact c2m),
          if_pos (show (t 0).spindle_id ≠ -1 from by rw [ht0]; exact h0ne),
          if_pos hfo0, if_neg hnfo1, if_pos hfo2, ht0, ht1]
        simp
      · intro _ m h2m hm3
        omega
      · intro k _ _
        exact ht2

theorem dedup_base (s : BindingTable) :
    DedupInv s (dedupStep (s, 1) 2).1 (dedupStep (s, 1) 2).2 3 := by
  by_cases hcol : (s 1).spindle_id = (s 0).spindle_id ∧ (s 1).spindle_id ≠ -1
  · exact dedup_base_coll hcol.1 hcol.2
  · refine dedupStep_inv ⟨Nat.le_refl 1, Nat.one_lt_two, fun m _ => rfl, ?_, ?_, ?_⟩
    · have hf1 : firstOcc s 1 ↔ (s 1).spindle_id ≠ -1 := by
        constructor
        · exact fun hf => hf.1
        · intro h
          refine ⟨h, ?_⟩
          intro a ha hae
          have ha0 : a = 0 := by omega
          subst ha0
          exact hcol ⟨hae.symm, h⟩
      rw [boundEntries_succ, boundEntries_succ, boundEntries_zero,
        firstOccEntries_succ, firstOccEntries_succ, firstOccEntries_zero]
      by_cases h0 : (s 0).spindle_id ≠ -1
      · by_cases h1 : (s 1).spindle_id ≠ -1
        · rw [if_pos (by simpa using h0), if_pos (by simpa using h1),
            if_pos ((firstOcc_zero_iff s).mpr h0), if_pos (hf1.mpr h1)]
        · rw [if_pos (by simpa using h0), if_neg (by simpa using h1),
            if_pos ((firstOcc_zero_iff s).mpr h0),
            if_neg (fun hf => h1 hf.1)]
      · by_cases h1 : (s 1).spindle_id ≠ -1
        · rw [if_neg (by simpa using h0), if_pos (by simpa using h1),
            if_neg (fun hf => h0 hf.1), if_pos (hf1.mpr h1)]
        · rw [if_neg (by simpa using h0), if_neg (by simpa using h1),
            if_neg (fun hf => h0 hf.1), if_neg (fun hf => h1 hf.1)]
    · intro _ m h1m hm2
      omega
    · intro k hk he
      have hk0 : k = 0 := by omega
      subst hk0
      by_contra hne
      exact hcol ⟨he, hne⟩

/-! ## The dedup pass: full characterisation -/

theorem firstOccSlots_pairwise_ne (s : BindingTable) (n : Nat) :
    (firstOccSlots s n).Pairwise
      (fun a b => (s a).spindle_id ≠ (s b).spindle_id) := by
  have h1 : (firstOccSlots s n).Pairwise (· < ·) :=
    (List.pairwise_lt_range n).filter _
  refine List.Pairwise.imp_of_mem ?_ h1
  intro a b _ hb hab
  have hfb : firstOcc s b := by
    have hm := List.mem_filter.mp hb
    simpa using hm.2
  exact hfb.2 a hab

theorem firstOccEntries_ids_nodup (s : BindingTable) (n : Nat) :
    ((firstOccEntries s n).map spindle_binding_t.spindle_id).Nodup := by
  have h : (List.map (fun b => (s b).spindle_id) (firstOccSlots s n)).Pairwise
      (fun x y => x ≠ y) :=
    List.pairwise_map.mpr (firstOccSlots_pairwise_ne s n)
  simpa [firstOccEntries, List.map_map, Function.comp, List.Nodup] using h

theorem pairwise_of_seq {s₀ s : BindingTable} {n : Nat}
    (hseq : boundEntries s n = firstOccEntries s₀ n) :
    ∀ a b, a < b → b < n → (s a).spindle_id ≠ -1 →
      (s a).spindle_id = (s b).spindle_id → False := by
  intro a b hab hbn hane he
  have hbne : (s b).spindle_id ≠ -1 := by rw [← he]; exact hane
  have hnodup : ((boundEntries s n).map spindle_binding_t.spindle_id).Nodup := by
    rw [hseq]; exact firstOccEntries_ids_nodup s₀ n
  rw [boundEntries, List.map_map] at hnodup
  have hinj := List.inj_on_of_nodup_map hnodup
  have hma : a ∈ boundSlots s n :=
    List.mem_filter.mpr ⟨List.mem_range.mpr (by omega), by simpa using hane⟩
  have hmb : b ∈ boundSlots s n :=
    List.mem_filter.mpr ⟨List.mem_range.mpr hbn, by simpa using hbne⟩
  have hab' : a = b := hinj hma hmb (by simpa using he)
  omega

theorem dedupStep_inv_pair {s₀ : BindingTable} {st : BindingTable × Nat}
    {idx : Nat} (h : DedupInv s₀ st.1 st.2 idx) :
    DedupInv s₀ (dedupStep st idx).1 (dedupStep st idx).2 (idx + 1) :=
  dedupStep_inv (s := st.1) (j := st.2) h

theorem dedupPass_inv (s : BindingTable) :
    DedupInv s
      (dedupStep (dedupStep (dedupStep (dedupStep (dedupStep
        (dedupStep (s, 1) 2) 3) 4) 5) 6) 7).1
      (dedupStep (dedupStep (dedupStep (dedupStep (dedupStep
        (dedupStep (s, 1) 2) 3) 4) 5) 6) 7).2 8 :=
  dedupStep_inv_pair (dedupStep_inv_pair (dedupStep_inv_pair
    (dedupStep_inv_pair (dedupStep_inv_pair (dedup_base s)))))

theorem dedupPass_eq_steps (s : BindingTable) :
    dedupPass s = (dedupStep (dedupStep (dedupStep (dedupStep (dedupStep
      (dedupStep (s, 1) 2) 3) 4) 5) 6) 7).1 := by
  have hr6 : List.range' 2 (N_SPINDLE_SETTINGS - 2) = [2, 3, 4, 5, 6, 7] := rfl
  unfold dedupPass
  rw [hr6]
  simp only [List.foldl_cons, List.foldl_nil]

theorem dedupPass_boundEntries (s : BindingTable) :
    boundEntries (dedupPass s) 8 = firstOccEntries s 8 := by
  rw [dedupPass_eq_steps]
  exact (dedupPass_inv s).hseq

/-! ## Concrete run of the dedup pass on `exC1` -/

theorem exC1_step2 : dedupStep (exC1, 1) 2 = (exC1b, 2) := by
  have hcoll : ∀ k, k < 1 → (exC1 1).spindle_id = (exC1 k).spindle_id →
      (exC1 1).spindle_id = -1 := by decide
  have hspec := dedupInner_spec_nocoll exC1 1 2 (by norm_num) hcoll
  rw [if_pos (show ∃ k, k < 2 ∧ (exC1 2).spindle_id = (exC1 k).spindle_id by
    decide)] at hspec
  have hmat : clearId exC1 2 = exC1b := by
    funext m
    match m with
    | 0 => rfl
    | 1 => rfl
    | 2 => rfl
    | 3 => rfl
    | 4 => rfl
    | 5 => rfl
    | 6 => rfl
    | 7 => rfl
    | (n + 8) => rfl
  rw [hmat] at hspec
  simp only [dedupStep]
  rw [hspec,
    if_neg (show ¬((exC1b 1).spindle_id = -1 ∧ (exC1b 2).spindle_id ≠ -1) by
      decide),
    if_pos (show (exC1b 2).spindle_id = -1 ∧ (exC1b 1).spindle_id ≠ -1 by
      decide)]

theorem exC1_step3 : dedupStep (exC1b, 2) 3 = (exC1b, 2) := by
  have hcoll : ∀ k, k < 2 → (exC1b 2).spindle_id = (exC1b k).spindle_id →
      (exC1b 2).spindle_id = -1 := by decide
  have hspec := dedupInner_spec_nocoll exC1b 2 3 (by norm_num) hcoll
  rw [if_pos (show ∃ k, k < 3 ∧ (exC1b 3).spindle_id = (exC1b k).spindle_id by
    decide)] at hspec
  have hmat : clearId exC1b 3 = exC1b := by
    funext m
    match m with
    | 0 => rfl
    | 1 => rfl
    | 2 => rfl
    | 3 => rfl
    | 4 => rfl
    | 5 => rfl
    | 6 => rfl
    | 7 => rfl
    | (n + 8) => rfl
  rw [hmat] at hspec
  simp only [dedupStep]
  rw [hspec,
    if_neg (show ¬((exC1b 2).spindle_id = -1 ∧ (exC1b 3).spindle_id ≠ -1) by
      decide),
    if_neg (show ¬((exC1b 3).spindle_id = -1 ∧ (exC1b 2).spindle_id ≠ -1) by
      decide)]

theorem exC1_step4 : dedupStep (exC1b, 2) 4 = (exC1c, 4) := by
  have hcoll : ∀ k, k < 2 → (exC1b 2).spindle_id = (exC1b k).spindle_id →
      (exC1b 2).spindle_id = -1 := by decide
  have hspec := dedupInner_spec_nocoll exC1b 2 4 (by norm_num) hcoll
  rw [if_neg (show ¬∃ k, k < 4 ∧ (exC1b 4).spindle_id = (exC1b k).spindle_id by
    decide)] at hspec
  have hmat : updSlot (updSlot exC1b 2
      ⟨(exC1b 4).spindle_id, (exC1b 4).min_tool_id⟩) 4
      ⟨-1, (exC1b 4).min_tool_id⟩ = exC1c := by
    funext m
    match m with
    | 0 => rfl
    | 1 => rfl
    | 2 => rfl
    | 3 => rfl
    | 4 => rfl
    | 5 => rfl
    | 6 => rfl
    | 7 => rfl
    | (n + 8) => rfl
  simp only [dedupStep]
  rw [hspec,
    if_pos (show (exC1b 2).spindle_id = -1 ∧ (exC1b 4).spindle_id ≠ -1 by
      decide), hmat,
    if_pos (show (exC1c 4).spindle_id = -1 ∧ (exC1c 2).spindle_id ≠ -1 by
      decide)]

theorem exC1_step5 : dedupStep (exC1c, 4) 5 = (exC1d, 5) := by
  have hcoll : ∀ k, k < 4 → (exC1c 4).spindle_id = (exC1c k).spindle_id →
      (exC1c 4).spindle_id = -1 := by decide
  have hspec := dedupInner_spec_nocoll exC1c 4 5 (by norm_num) hcoll
  rw [if_neg (show ¬∃ k, k < 5 ∧ (exC1c 5).spindle_id = (exC1c k).spindle_id by
    decide)] at hspec
  have hmat : updSlot (updSlot exC1c 4
      ⟨(exC1c 5).spindle_id, (exC1c 5).min_tool_id⟩) 5
      ⟨-1, (exC1c 5).min_tool_id⟩ = exC1d := by
    funext m
    match m with
    | 0 => rfl
    | 1 => rfl
    | 2 => rfl
    | 3 => rfl
    | 4 => rfl
    | 5 => rfl
    | 6 => rfl
    | 7 => rfl
    | (n + 8) => rfl
  simp only [dedupStep]
  rw [hspec,
    if_pos (show (exC1c 4).spindle_id = -1 ∧ (exC1c 5).spindle_id ≠ -1 by
      decide), hmat,
    if_pos (show (exC1d 5).spindle_id = -1 ∧ (exC1d 4).spindle_id ≠ -1 by
      decide)]

theorem exC1_step6 : dedupStep (exC1d, 5) 6 = (exC1d, 5) := by
  have hcoll : ∀ k, k < 5 → (exC1d 5).spindle_id = (exC1d k).spindle_id →
      (exC1d 5).spindle_id = -1 := by decide
  have hspec := dedupInner_spec_nocoll exC1d 5 6 (by norm_num) hcoll
  rw [if_pos (show ∃ k, k < 6 ∧ (exC1d 6).spindle_id = (exC1d k).spindle_id by
    decide)] at hspec
  have hmat : clearId exC1d 6 = exC1d := by
    funext m
    match m with
    | 0 => rfl
    | 1 => rfl
    | 2 => rfl
    | 3 => rfl
    | 4 => rfl
    | 5 => rfl
    | 6 => rfl
    | 7 => rfl
    | (n + 8) => rfl
  rw [hmat] at hspec
  simp only [dedupStep]
  rw [hspec,
    if_neg (show ¬((exC1d 5).spindle_id = -1 ∧ (exC1d 6).spindle_id ≠ -1) by
      decide),
    if_neg (show ¬((exC1d 6).spindle_id = -1 ∧ (exC1d 5).spindle_id ≠ -1) by
      decide)]

theorem exC1_step7 : dedupStep (exC1d, 5) 7 = (exC1d, 5) := by
  have hcoll : ∀ k, k < 5 → (exC1d 5).spindle_id = (exC1d k).spindle_id →
      (exC1d 5).spindle_id = -1 := by decide
  have hspec := dedupInner_spec_nocoll exC1d 5 7 (by norm_num) hcoll
  rw [if_pos (show ∃ k, k < 7 ∧ (exC1d 7).spindle_id = (exC1d k).spindle_id by
    decide)] at hspec
  have hmat : clearId exC1d 7 = exC1d := by
    funext m
    match m with
    | 0 => rfl
    | 1 => rfl
    | 2 => rfl
    | 3 => rfl
    | 4 => rfl
    | 5 => rfl
    | 6 => rfl
    | 7 => rfl
    | (n + 8) => rfl
  rw [hmat] at hspec
  simp only [dedupStep]
  rw [hspec,
    if_neg (show ¬((exC1d 5).spindle_id = -1 ∧ (exC1d 7).spindle_id ≠ -1) by
      decide),
    if_neg (show ¬((exC1d 7).spindle_id = -1 ∧ (exC1d 5).spindle_id ≠ -1) by
      decide)]

theorem dedupPass_exC1 : dedupPass exC1 = exC1d := by
  rw [dedupPass_eq_steps, exC1_step2, exC1_step3, exC1_step4, exC1_step5,
    exC1_step6, exC1_step7]

/-! ## The `select_by_tool` scan -/

theorem selectScan_iff (s : BindingTable) :
    ∀ n, 1 ≤ n → (selectScan s n = true ↔ ∃ i, i < n ∧ slotQualifies s i = true) := by
  intro n
  induction n with
  | zero => omega
  | succ m ih =>
    intro _
    by_cases hm : m = 0
    · subst hm
      simp only [selectScan]
      constructor
      · intro hb
        refine ⟨0, Nat.zero_lt_one, ?_⟩
        simpa using hb
      · rintro ⟨i, hi, hq⟩
        have : i = 0 := by omega
        subst this
        simpa using hq
    · by_cases hq : slotQualifies s m = true
      · simp only [selectScan, hq]
        constructor
        · intro _
          exact ⟨m, Nat.lt_succ_self m, hq⟩
        · intro _
          simp
      · simp only [selectScan, hq]
        rw [if_pos (show m ≠ 0 ∧ True from ⟨hm, trivial⟩)]
        rw [ih (by omega)]
        constructor
        · rintro ⟨i, hi, hqi⟩
          exact ⟨i, Nat.lt_succ_of_lt hi, hqi⟩
        · rintro ⟨i, hi, hqi⟩
          refine ⟨i, ?_, hqi⟩
          rcases Nat.lt_succ_iff_lt_or_eq.mp hi with h | h
          · exact h
          · subst h
            rw [hqi] at hq
            exact absurd rfl hq

theorem clampLoop_qualifies (n_tools : Nat) (hn : n_tools ≠ 0) :
    ∀ n s i, slotQualifies (clampLoop n_tools s n) i = slotQualifies s i := by
  intro n
  induction n with
  | zero => intro s i; rfl
  | succ m ih =>
    intro s i
    have hstep : ∀ t : BindingTable,
        slotQualifies (if n_tools < (t m).min_tool_id then
          updSlot t m ⟨(t m).spindle_id, n_tools⟩ else t) i = slotQualifies t i := by
      intro t
      by_cases hc : n_tools < (t m).min_tool_id
      · rw [if_pos hc]
        by_cases him : i = m
        · subst him
          simp only [slotQualifies, updSlot_self]
          have h1 : (0 < n_tools) = (0 < (t i).min_tool_id) := by
            have : 0 < n_tools := Nat.pos_of_ne_zero hn
            have h2 : 0 < (t i).min_tool_id := by omega
            simp [this, h2]
          simp only [h1]
        · simp only [slotQualifies, updSlot_ne _ _ _ him]
      · rw [if_neg hc]
    simp only [clampLoop]
    by_cases hm : m = 0
    · subst hm
      rw [if_pos rfl]
      exact hstep s
    · rw [if_neg hm, ih, hstep]

/-! ## Claim theorems: the binding table -/

/-- C1 (corrected): after the dedup/compaction pass of
`spindle_settings_load`, run on any table (slot 0 already forced to the
default spindle type), the bound entries taken in slot order are exactly the
entries of the input table whose slot held the first occurrence of its
(bound) spindle id, in their order of first appearance, each carrying its
`min_tool_id`; consequently the lowest-indexed occurrence of a duplicated id
survives and every higher-indexed duplicate is cleared, and no two distinct
slots of index ≥ 1 remain bound to the same physical id.  Entries only move
to lower-numbered slots, but full compaction toward the front is NOT
guaranteed: the cursor can skip an empty slot, leaving a gap (see the
counterexample). -/
theorem spindle_select_load_dedup_characterisation (s : BindingTable) :
    boundEntries (dedupPass s) 8 = firstOccEntries s 8 ∧
    ∀ a b, 1 ≤ a → a < b → b < N_SPINDLE_SETTINGS →
      ((dedupPass s) a).spindle_id ≠ -1 →
      ((dedupPass s) a).spindle_id ≠ ((dedupPass s) b).spindle_id := by
  refine ⟨dedupPass_boundEntries s, ?_⟩
  intro a b _ hab hb hane he
  exact pairwise_of_seq (dedupPass_boundEntries s) a b hab hb hane he

/-- C1 counterexample: an input table with duplicates (slots 1 and 2 both
bound to id 1) for which the pass leaves slot 3 unbound while slot 4 is
still bound — the surviving entries are NOT compacted toward the front. -/
theorem spindle_select_load_dedup_gap_counterexample :
    (exC1 1).spindle_id = (exC1 2).spindle_id ∧ (exC1 1).spindle_id ≠ -1 ∧
    ¬ frontCompacted (dedupPass exC1) := by
  refine ⟨by decide, by decide, ?_⟩
  rw [dedupPass_exC1]
  decide

/-- C2 (corrected): after `spindle_settings_load` and after
`spindle_settings_save`, the derived `select_by_tool` flag is true iff SOME
slot `i < N_SPINDLE_SELECTABLE` — including slot 0 — holds a non-unbound
spindle id together with `min_tool_id > 0`.  The descending do-while
evaluates slot 0 last, so slot 0 DOES contribute to the derived mode
(contrary to the claim). -/
theorem spindle_select_by_tool_flag (registry : List spindle_info_t)
    (nSel : Nat) (d1 d2 d3 : Option Nat) (default_type n_tools : Nat)
    (current : BindingTable) (stored : Option BindingTable)
    (hn : 1 ≤ nSel) :
    ((spindle_settings_load registry nSel d1 d2 d3 default_type n_tools
        current stored).2 = true ↔
      ∃ i, i < nSel ∧ slotQualifies (spindle_settings_load registry nSel d1 d2
        d3 default_type n_tools current stored).1 i = true) ∧
    ∀ s : BindingTable,
      ((spindle_settings_save nSel s).1 = true ↔
        ∃ i, i < nSel ∧ slotQualifies s i = true) := by
  constructor
  · simp only [spindle_settings_load]
    by_cases hc : 1 < nSel ∧ n_tools ≠ 0
    · rw [if_pos hc, selectScan_iff _ nSel hn]
      constructor
      · rintro ⟨i, hi, hq⟩
        exact ⟨i, hi, by rw [clampLoop_qualifies n_tools hc.2]; exact hq⟩
      · rintro ⟨i, hi, hq⟩
        rw [clampLoop_qualifies n_tools hc.2] at hq
        exact ⟨i, hi, hq⟩
    · rw [if_neg hc]
      exact selectScan_iff _ nSel hn
  · intro s
    exact selectScan_iff s nSel hn

/-- C2 witness: the flag theorem applied at a concrete configuration. -/
theorem spindle_select_by_tool_flag_witness :
    ((spindle_settings_load [] 8 none none none 0 0 (tableOfList [])
        (some (tableOfList [⟨0, 0⟩, ⟨2, 9⟩]))).2 = true ↔
      ∃ i, i < 8 ∧ slotQualifies (spindle_settings_load [] 8 none none none 0 0
        (tableOfList []) (some (tableOfList [⟨0, 0⟩, ⟨2, 9⟩]))).1 i = true) ∧
    ∀ s : BindingTable,
      ((spindle_settings_save 8 s).1 = true ↔
        ∃ i, i < 8 ∧ slotQualifies s i = true) :=
  spindle_select_by_tool_flag [] 8 none none none 0 0 (tableOfList [])
    (some (tableOfList [⟨0, 0⟩, ⟨2, 9⟩])) (by decide)

/-- C2 counterexample: a table whose slot 0 is bound (always the case after
load) and stores `min_tool_id = 5`, all other slots unbound.  After
`spindle_settings_save` the flag is TRUE although no slot of index ≥ 1
qualifies — slot 0 contributed, refuting the claimed "iff" and
"slot 0 never contributes". -/
theorem spindle_select_by_tool_flag_counterexample :
    (spindle_settings_save 8 (tableOfList [⟨0, 5⟩])).1 = true ∧
    ∀ i, 1 ≤ i → i < 8 → slotQualifies (tableOfList [⟨0, 5⟩]) i = false := by
  constructor
  · decide
  · decide

/-- C3 (corrected): `validate` on a Spindle_Select block rejects a block
with both P and Q present and one with neither present, but the failure
shapes do NOT carry distinct status codes: the final
`else state = Status_GcodeValueOutOfRange` collapses every failure —
missing value, out-of-range value, both present, neither present — to the
single code `Status_GcodeValueOutOfRange` (the only other possible result
being `Status_OK`). -/
theorem validate_phase2_fst (C : Prop) [Decidable C] (X gc : parser_block_t) :
    ((if C then (Status_OK, X) else (Status_GcodeValueOutOfRange, gc)).1 =
        Status_OK) ∨
    ((if C then (Status_OK, X) else (Status_GcodeValueOutOfRange, gc)).1 =
        Status_GcodeValueOutOfRange) := by
  by_cases hC : C
  · left; rw [if_pos hC]
  · right; rw [if_neg hC]

theorem validate_reject_shapes
    (chain : Option (parser_block_t → status_code_t × parser_block_t))
    (s : BindingTable) (gc : parser_block_t)
    (h : gc.user_mcode = user_mcode_t.Spindle_Select) :
    ((validate chain s gc).1 = Status_OK ∨
      (validate chain s gc).1 = Status_GcodeValueOutOfRange) ∧
    (gc.word_p = true → gc.word_q = true →
      (validate chain s gc).1 = Status_GcodeValueOutOfRange) ∧
    (gc.word_p = false → gc.word_q = false →
      (validate chain s gc).1 = Status_GcodeValueOutOfRange) := by
  refine ⟨?_, ?_, ?_⟩
  · simp only [validate, if_pos h]
    exact validate_phase2_fst _ _ _
  · intro hp hq
    simp only [validate, if_pos h, hp, hq]
    simp
  · intro hp hq
    simp only [validate, if_pos h, hp, hq]
    simp

/-- C3 witness: `validate_reject_shapes` at a concrete block (P and Q both
present). -/
theorem validate_reject_shapes_witness :
    ((validate none (tableOfList [])
        ⟨user_mcode_t.Spindle_Select, true, true, none, none, false⟩).1 =
          Status_OK ∨
      (validate none (tableOfList [])
        ⟨user_mcode_t.Spindle_Select, true, true, none, none, false⟩).1 =
          Status_GcodeValueOutOfRange) ∧
    ((⟨user_mcode_t.Spindle_Select, true, true, none, none,
        false⟩ : parser_block_t).word_p = true →
      (⟨user_mcode_t.Spindle_Select, true, true, none, none,
        false⟩ : parser_block_t).word_q = true →
      (validate none (tableOfList [])
        ⟨user_mcode_t.Spindle_Select, true, true, none, none, false⟩).1 =
          Status_GcodeValueOutOfRange) ∧
    ((⟨user_mcode_t.Spindle_Select, true, true, none, none,
        false⟩ : parser_block_t).word_p = false →
      (⟨user_mcode_t.Spindle_Select, true, true, none, none,
        false⟩ : parser_block_t).word_q = false →
      (validate none (tableOfList [])
        ⟨user_mcode_t.Spindle_Select, true, true, none, none, false⟩).1 =
          Status_GcodeValueOutOfRange) :=
  validate_reject_shapes none (tableOfList [])
    ⟨user_mcode_t.Spindle_Select, true, true, none, none, false⟩ rfl

/-- C3 counterexample: three distinct failure shapes — a P word with a NaN
value (missing value), a block with neither P nor Q, and a block with both
present — all return the SAME status code
`Status_GcodeValueOutOfRange`, refuting "each of the failure shapes yields
its own distinct status code". -/
theorem validate_shapes_same_code_counterexample :
    (validate none (tableOfList [])
      ⟨user_mcode_t.Spindle_Select, true, false, none, none, false⟩).1 =
        Status_GcodeValueOutOfRange ∧
    (validate none (tableOfList [])
      ⟨user_mcode_t.Spindle_Select, false, false, none, none, false⟩).1 =
        Status_GcodeValueOutOfRange ∧
    (validate none (tableOfList [])
      ⟨user_mcode_t.Spindle_Select, true, true, none, none, false⟩).1 =
        Status_GcodeValueOutOfRange := by
  refine ⟨rfl, rfl, rfl⟩

/-- C4 (corrected): `set_spindle_type` on a non-default slot rejects —
leaving the table unchanged — exactly when fewer than two physical spindles
exist (`Status_SettingDisabled`), when the chosen value is out of range
(`Status_SettingValueOutOfRange`), or when the id equals the current default
spindle type (`Status_InvalidStatement`).  Binding an id already used by
another enabled slot is NOT rejected: the code's duplicate check is an open
TODO, and the write succeeds. -/
theorem set_spindle_type_spec (n_spindle spindle_count default_type slot
    int_value : Nat) (s : BindingTable) (hv : int_value ≠ n_spindle) :
    (spindle_count < 2 →
      set_spindle_type n_spindle spindle_count default_type slot int_value s =
        (Status_SettingDisabled, s)) ∧
    (2 ≤ spindle_count → spindle_count ≤ int_value →
      set_spindle_type n_spindle spindle_count default_type slot int_value s =
        (Status_SettingValueOutOfRange, s)) ∧
    (2 ≤ spindle_count → int_value < spindle_count → int_value = default_type →
      set_spindle_type n_spindle spindle_count default_type slot int_value s =
        (Status_InvalidStatement, s)) ∧
    (2 ≤ spindle_count → int_value < spindle_count → int_value ≠ default_type →
      set_spindle_type n_spindle spindle_count default_type slot int_value s =
        (Status_OK, updSlot s slot ⟨(int_value : Int), (s slot).min_tool_id⟩)) := by
  simp only [set_spindle_type, if_neg hv,
    if_pos (Int.natCast_nonneg int_value)]
  refine ⟨?_, ?_, ?_, ?_⟩
  · intro h1
    rw [if_pos h1]
  · intro h1 h2
    rw [if_neg (by omega), if_pos h2]
  · intro h1 h2 h3
    rw [if_neg (by omega), if_neg (by omega),
      if_pos (show (int_value : Int) = (default_type : Int) from by
        exact_mod_cast h3)]
  · intro h1 h2 h3
    rw [if_neg (by omega), if_neg (by omega),
      if_neg (show ¬(int_value : Int) = (default_type : Int) from by
        exact_mod_cast h3)]

/-- C4 witness: `set_spindle_type_spec` at a concrete configuration. -/
theorem set_spindle_type_spec_witness :
    (3 < 2 →
      set_spindle_type 3 3 0 2 1 (tableOfList [⟨0, 0⟩, ⟨1, 0⟩]) =
        (Status_SettingDisabled, tableOfList [⟨0, 0⟩, ⟨1, 0⟩])) ∧
    (2 ≤ 3 → 3 ≤ 1 →
      set_spindle_type 3 3 0 2 1 (tableOfList [⟨0, 0⟩, ⟨1, 0⟩]) =
        (Status_SettingValueOutOfRange, tableOfList [⟨0, 0⟩, ⟨1, 0⟩])) ∧
    (2 ≤ 3 → 1 < 3 → 1 = 0 →
      set_spindle_type 3 3 0 2 1 (tableOfList [⟨0, 0⟩, ⟨1, 0⟩]) =
        (Status_InvalidStatement, tableOfList [⟨0, 0⟩, ⟨1, 0⟩])) ∧
    (2 ≤ 3 → 1 < 3 → 1 ≠ 0 →
      set_spindle_type 3 3 0 2 1 (tableOfList [⟨0, 0⟩, ⟨1, 0⟩]) =
        (Status_OK, updSlot (tableOfList [⟨0, 0⟩, ⟨1, 0⟩]) 2
          ⟨(1 : Int), (tableOfList [⟨0, 0⟩, ⟨1, 0⟩] 2).min_tool_id⟩)) :=
  set_spindle_type_spec 3 3 0 2 1 (tableOfList [⟨0, 0⟩, ⟨1, 0⟩]) (by decide)

/-- C4 counterexample: slot 1 is already bound to physical id 1, yet binding
slot 2 to the same id 1 (with 3 registered spindles and default type 0)
returns `Status_OK` and modifies the table, creating a duplicate binding —
the claimed rejection of already-bound ids does not exist. -/
theorem set_spindle_type_duplicate_counterexample :
    (set_spindle_type 3 3 0 2 1 (tableOfList [⟨0, 0⟩, ⟨1, 0⟩])).1 =
      Status_OK ∧
    ((set_spindle_type 3 3 0 2 1 (tableOfList [⟨0, 0⟩, ⟨1, 0⟩])).2 2).spindle_id
      = 1 ∧
    ((set_spindle_type 3 3 0 2 1 (tableOfList [⟨0, 0⟩, ⟨1, 0⟩])).2 1).spindle_id
      = 1 ∧
    ((1 : Int) ≠ -1) := by
  refine ⟨by decide, by decide, by decide, by decide⟩

/-! ## `spindle_settings_restore` -/

theorem foldl_gds_at (r idx : Nat) :
    ∀ (registry : List spindle_info_t) (s : BindingTable),
      ((registry.foldl (get_default_spindle r idx) s) idx =
        ⟨(match resolveRef registry r with
          | none => (s idx).spindle_id
          | some v => (v : Int)), (s idx).min_tool_id⟩) ∧
      (∀ m, m ≠ idx → (registry.foldl (get_default_spindle r idx) s) m = s m) := by
  intro registry
  induction registry with
  | nil =>
    intro s
    exact ⟨rfl, fun m _ => rfl⟩
  | cons info rest ih =>
    intro s
    rw [List.foldl_cons]
    obtain ⟨ihat, ihne⟩ := ih (get_default_spindle r idx s info)
    constructor
    · rw [ihat]
      by_cases hm : info.ref_id = r
      · have hslot : get_default_spindle r idx s info idx =
            ⟨(info.id : Int), (s idx).min_tool_id⟩ := by
          simp only [get_default_spindle, if_pos hm, updSlot_self]
        rw [hslot]
        simp only [resolveRef]
        cases hr : resolveRef rest r with
        | none => simp [hm]
        | some v => simp
      · have hslot : get_default_spindle r idx s info idx = s idx := by
          simp only [get_default_spindle, if_neg hm]
        rw [hslot]
        simp only [resolveRef]
        cases hr : resolveRef rest r with
        | none => simp [hm]
        | some v => simp
    · intro m hm
      rw [ihne m hm]
      by_cases hmr : info.ref_id = r
      · simp only [get_default_spindle, if_pos hmr]
        exact updSlot_ne _ _ _ hm
      · simp only [get_default_spindle, if_neg hmr]

theorem restoreSlot_at (registry : List spindle_info_t) (ref : Option Nat)
    (idx : Nat) (s : BindingTable) :
    ((restoreSlot registry ref idx s) idx =
      ⟨(match ref with
        | none => if idx = 0 then 0 else -1
        | some r =>
          match resolveRef registry r with
          | none => if idx = 0 then (0 : Int) else -1
          | some v => (v : Int)), 0⟩) ∧
    (∀ m, m ≠ idx → (restoreSlot registry ref idx s) m = s m) := by
  cases ref with
  | none =>
    constructor
    · simp only [restoreSlot]
      rw [updSlot_self, updSlot_self]
    · intro m hm
      simp only [restoreSlot]
      rw [updSlot_ne _ _ _ hm, updSlot_ne _ _ _ hm]
  | some r =>
    obtain ⟨hat, hne⟩ := foldl_gds_at r idx registry
      (updSlot s idx ⟨if idx = 0 then 0 else -1, (s idx).min_tool_id⟩)
    constructor
    · simp only [restoreSlot]
      rw [updSlot_self, hat]
      cases hr : resolveRef registry r with
      | none => simp [updSlot_self]
      | some v => simp
    · intro m hm
      simp only [restoreSlot]
      rw [updSlot_ne _ _ _ hm, hne m hm, updSlot_ne _ _ _ hm]

theorem restoreSlot_entry (registry : List spindle_info_t) (nSel : Nat)
    (d1 d2 d3 : Option Nat) (idx : Nat) (s : BindingTable) :
    (restoreSlot registry (slotRefId nSel d1 d2 d3 idx) idx s) idx =
      restoredEntry registry nSel d1 d2 d3 idx := by
  rw [(restoreSlot_at registry (slotRefId nSel d1 d2 d3 idx) idx s).1]
  rfl

theorem restoreLoop_spec (registry : List spindle_info_t) (nSel : Nat)
    (d1 d2 d3 : Option Nat) :
    ∀ n s,
      (∀ i, i < n → (restoreLoop registry nSel d1 d2 d3 s n) i =
        restoredEntry registry nSel d1 d2 d3 i) ∧
      (∀ i, n ≤ i → (restoreLoop registry nSel d1 d2 d3 s n) i = s i) := by
  intro n
  induction n with
  | zero =>
    intro s
    exact ⟨fun i hi => absurd hi (Nat.not_lt_zero i), fun i _ => rfl⟩
  | succ m ih =>
    intro s
    by_cases hm : m = 0
    · subst hm
      simp only [restoreLoop, if_true, ite_self]
      constructor
      · intro i hi
        have : i = 0 := by omega
        subst this
        exact restoreSlot_entry registry nSel d1 d2 d3 0 s
      · intro i hi
        exact (restoreSlot_at registry _ 0 s).2 i (by omega)
    · simp only [restoreLoop, if_neg hm]
      obtain ⟨ihat, ihge⟩ :=
        ih (restoreSlot registry (slotRefId nSel d1 d2 d3 m) m s)
      constructor
      · intro i hi
        rcases Nat.lt_succ_iff_lt_or_eq.mp hi with hi' | hi'
        · exact ihat i hi'
        · subst hi'
          rw [ihge i (Nat.le_refl i)]
          exact restoreSlot_entry registry nSel d1 d2 d3 i s
      · intro i hi
        rw [ihge i (by omega)]
        exact (restoreSlot_at registry _ m s).2 i (by omega)

/-- C7 (corrected): `spindle_settings_restore` leaves slot 0 bound to
physical id 0 (NOT the unbound sentinel), binds each slot 1..3 whose
compile-time reference id is configured to the LAST registry entry whose
`ref_id` matches (the enumeration callback overwrites on every match), and
leaves a slot unbound when no registry entry matches or no reference id is
configured; every slot's `min_tool_id` is reset to 0; the resulting table is
then persisted to NVS unchanged. -/
theorem spindle_settings_restore_spec (registry : List spindle_info_t)
    (nSel : Nat) (d1 d2 d3 : Option Nat) (s : BindingTable) :
    (∀ i, i < N_SPINDLE_SETTINGS →
      (spindle_settings_restore registry nSel d1 d2 d3 s).1 i =
        restoredEntry registry nSel d1 d2 d3 i) ∧
    ((spindle_settings_restore registry nSel d1 d2 d3 s).1 0 =
      ⟨0, 0⟩) ∧
    (spindle_settings_restore registry nSel d1 d2 d3 s).2 =
      (spindle_settings_restore registry nSel d1 d2 d3 s).1 := by
  obtain ⟨hat, _⟩ := restoreLoop_spec registry nSel d1 d2 d3 N_SPINDLE_SETTINGS s
  exact ⟨hat, (hat 0 (by decide)).trans rfl, rfl⟩

/-- C7 counterexample: with registry entries `{id 1, ref 5}` then
`{id 2, ref 5}` and `DEFAULT_SPINDLE1 = 5`, restore leaves slot 0 bound to
id 0 — not the unbound sentinel −1 — and binds slot 1 to id 2, the LAST
matching registry entry rather than the first. -/
theorem spindle_settings_restore_counterexample :
    ((spindle_settings_restore [⟨1, 5⟩, ⟨2, 5⟩] 4 (some 5) none none
      (tableOfList [])).1 0).spindle_id = 0 ∧
    ((0 : Int) ≠ -1) ∧
    ((spindle_settings_restore [⟨1, 5⟩, ⟨2, 5⟩] 4 (some 5) none none
      (tableOfList [])).1 1).spindle_id = 2 := by
  obtain ⟨hat, _⟩ := restoreLoop_spec [⟨1, 5⟩, ⟨2, 5⟩] 4 (some 5) none none
    N_SPINDLE_SETTINGS (tableOfList [])
  refine ⟨?_, by decide, ?_⟩
  · rw [show (spindle_settings_restore [⟨1, 5⟩, ⟨2, 5⟩] 4 (some 5) none none
        (tableOfList [])).1 0 = restoredEntry [⟨1, 5⟩, ⟨2, 5⟩] 4 (some 5) none
        none 0 from hat 0 (by decide)]
    decide
  · rw [show (spindle_settings_restore [⟨1, 5⟩, ⟨2, 5⟩] 4 (some 5) none none
        (tableOfList [])).1 1 = restoredEntry [⟨1, 5⟩, ⟨2, 5⟩] 4 (some 5) none
        none 1 from hat 1 (by decide)]
    decide

/-! ## The YL620 driver: send loop -/

theorem send_loop_fail (send : Nat → Bool) (hf : ∀ m, send m = false) (R : Nat) :
    ∀ fuel r n, r + fuel = R + 2 → r ≤ R →
      send_loop send true R fuel n r = (false, R + 1, n + (R + 1 - r)) := by
  intro fuel
  induction fuel with
  | zero => omega
  | succ f ih =>
    intro r n hfuel hr
    simp only [send_loop, hf n]
    norm_num
    by_cases hrR : r + 1 ≤ R
    · rw [if_pos hrR, ih (r + 1) (n + 1) (by omega) hrR]
      have harith : n + 1 + (R + 1 - (r + 1)) = n + (R + 1 - r) := by omega
      rw [harith]
    · rw [if_neg hrR]
      have h2 : r + 1 = R + 1 := by omega
      have h3 : n + 1 = n + (R + 1 - r) := by omega
      rw [h2, h3]

theorem send_loop_nonblock (send : Nat → Bool) (R : Nat) (fuel n r : Nat) :
    send_loop send false R (fuel + 1) n r =
      (send n, if send n then r else r + 1, n + 1) := by
  simp only [send_loop]
  rw [if_neg (fun hh => Bool.false_ne_true hh.2.1)]

theorem spindleSetRPM_all_fail_eq (R rpm_hz : Nat) (send : Nat → Bool)
    (sasr : spindle_data_t → ℚ → spindle_data_t) (st : YlState) (rpm : ℚ)
    (hg : st.setrpm_retries = 0) (hf : ∀ n, send n = false) :
    spindleSetRPM R rpm_hz send sasr st rpm true =
      ({ st with spindle_data := sasr st.spindle_data rpm, setrpm_retries := 0 },
       { sent := List.replicate (R + 1)
           ⟨vfd_response_t.VFD_SetRPM, rpm_register_value rpm_hz rpm, true⟩,
         vfd_failed_count := 1, alarm_count := 0 }) := by
  simp only [spindleSetRPM]
  rw [if_neg (show ¬st.setrpm_retries ≠ 0 from fun hh => hh hg)]
  rw [send_loop_fail send hf R (R + 2) 0 0 (by omega) (by omega)]
  have h1 : 0 + (R + 1 - 0) = R + 1 := by omega
  simp only [h1]
  simp

theorem spindleSetRPM_nonblock_eq (R rpm_hz : Nat) (send : Nat → Bool)
    (sasr : spindle_data_t → ℚ → spindle_data_t) (st : YlState) (rpm : ℚ)
    (hg : st.setrpm_retries = 0) :
    spindleSetRPM R rpm_hz send sasr st rpm false =
      ({ st with spindle_data := sasr st.spindle_data rpm, setrpm_retries := 0 },
       { sent := [⟨vfd_response_t.VFD_SetRPM, rpm_register_value rpm_hz rpm,
           false⟩],
         vfd_failed_count := if send 0 then 0 else 1, alarm_count := 0 }) := by
  simp only [spindleSetRPM]
  rw [if_neg (show ¬st.setrpm_retries ≠ 0 from fun hh => hh hg)]
  rw [show R + 2 = (R + 1) + 1 from rfl, send_loop_nonblock send R (R + 1) 0 0]
  simp only [List.replicate]

/-- C8 (confirmed): when every blocking send of a set-rpm request fails (the
drive never replies), `spindleSetRPM` makes exactly `VFD_RETRIES + 1` send
attempts of the same speed request, then raises the drive fault
(`vfd_failed`), and its static retry counter is zero again when the call
returns.  `R` is `VFD_RETRIES`; the guard hypothesis `hg` is the
non-reentrant entry state. -/
theorem spindleSetRPM_never_replies (R rpm_hz : Nat) (send : Nat → Bool)
    (sasr : spindle_data_t → ℚ → spindle_data_t) (st : YlState) (rpm : ℚ)
    (hg : st.setrpm_retries = 0) (hf : ∀ n, send n = false) :
    (spindleSetRPM R rpm_hz send sasr st rpm true).2.sent =
      List.replicate (R + 1)
        ⟨vfd_response_t.VFD_SetRPM, rpm_register_value rpm_hz rpm, true⟩ ∧
    (spindleSetRPM R rpm_hz send sasr st rpm true).2.sent.length = R + 1 ∧
    (spindleSetRPM R rpm_hz send sasr st rpm true).2.vfd_failed_count = 1 ∧
    (spindleSetRPM R rpm_hz send sasr st rpm true).1.setrpm_retries = 0 := by
  rw [spindleSetRPM_all_fail_eq R rpm_hz send sasr st rpm hg hf]
  refine ⟨rfl, ?_, rfl, rfl⟩
  simp

/-- C8 witness: `spindleSetRPM_never_replies` at `VFD_RETRIES = 2`,
`vfd_rpm_hz = 60`, 1200 rpm, from an idle driver state. -/
theorem spindleSetRPM_never_replies_witness :
    (spindleSetRPM 2 60 (fun _ => false) (fun d _ => d)
        ⟨0, 0, 0, ⟨false, false, false⟩,
          ⟨0, ⟨false, false, false⟩, false⟩, 0⟩ 1200 true).2.sent =
      List.replicate (2 + 1)
        ⟨vfd_response_t.VFD_SetRPM, rpm_register_value 60 1200, true⟩ ∧
    (spindleSetRPM 2 60 (fun _ => false) (fun d _ => d)
        ⟨0, 0, 0, ⟨false, false, false⟩,
          ⟨0, ⟨false, false, false⟩, false⟩, 0⟩ 1200 true).2.sent.length =
      2 + 1 ∧
    (spindleSetRPM 2 60 (fun _ => false) (fun d _ => d)
        ⟨0, 0, 0, ⟨false, false, false⟩,
          ⟨0, ⟨false, false, false⟩, false⟩, 0⟩ 1200
        true).2.vfd_failed_count = 1 ∧
    (spindleSetRPM 2 60 (fun _ => false) (fun d _ => d)
        ⟨0, 0, 0, ⟨false, false, false⟩,
          ⟨0, ⟨false, false, false⟩, false⟩, 0⟩ 1200
        true).1.setrpm_retries = 0 :=
  spindleSetRPM_never_replies 2 60 (fun _ => false) (fun d _ => d)
    ⟨0, 0, 0, ⟨false, false, false⟩, ⟨0, ⟨false, false, false⟩, false⟩, 0⟩
    1200 rfl (fun _ => rfl)

/-! ## `spindleSetState` -/

theorem spindleSetState_all_fail_eq (R rpm_hz : Nat)
    (sendMode sendRpm : Nat → Bool) (sasr : spindle_data_t → ℚ → spindle_data_t)
    (st : YlState) (state : spindle_state_t) (rpm : ℚ)
    (hg : st.setstate_retries = 0) (hf : ∀ n, sendMode n = false) :
    spindleSetState R rpm_hz sendMode sendRpm sasr st state rpm =
      ({ st with
          vfd_state := { st.vfd_state with on' := state.on', ccw := state.ccw },
          spindle_data := { st.spindle_data with
            rpm_programmed := if st.vfd_state.ccw ≠ state.ccw then -1
              else st.spindle_data.rpm_programmed,
            state_programmed := { st.spindle_data.state_programmed with
              on' := state.on', ccw := state.ccw } },
          setstate_retries := 0 },
       { sent := List.replicate (R + 1) ⟨vfd_response_t.VFD_SetStatus,
           (if state.ccw then 0x20 else 0x10) |||
             (if state.on' = false ∨ rpm = 0 then 0x1 else 0x2), true⟩,
         vfd_failed_count := 1, alarm_count := 0 }) := by
  simp only [spindleSetState]
  rw [if_neg (show ¬st.setstate_retries ≠ 0 from fun hh => hh hg)]
  rw [send_loop_fail sendMode hf R (R + 2) 0 0 (by omega) (by omega)]
  have h1 : 0 + (R + 1 - 0) = R + 1 := by omega
  simp only [h1]
  by_cases hdir : st.vfd_state.ccw ≠ state.ccw
  · rw [if_pos hdir, if_pos hdir]
    simp
  · rw [if_neg hdir, if_neg hdir]
    simp

/-- C9 (confirmed): a `spindleSetState` call that passes the reentrancy
guard writes the requested `on`/`ccw` into `vfd_state` and mirrors them into
`spindle_data.state_programmed`, and resets `spindle_data.rpm_programmed` to
−1 exactly when the requested direction differs from the previously recorded
one; these updates happen before any transport attempt and persist — with no
rollback — even when every send of the run/direction request fails and the
drive fault is raised (in which case the speed request is never issued). -/
theorem spindleSetState_frame (R rpm_hz : Nat)
    (sendMode sendRpm : Nat → Bool) (sasr : spindle_data_t → ℚ → spindle_data_t)
    (st : YlState) (state : spindle_state_t) (rpm : ℚ)
    (hg : st.setstate_retries = 0) (hf : ∀ n, sendMode n = false) :
    (spindleSetState R rpm_hz sendMode sendRpm sasr st state
      rpm).1.vfd_state.on' = state.on' ∧
    (spindleSetState R rpm_hz sendMode sendRpm sasr st state
      rpm).1.vfd_state.ccw = state.ccw ∧
    (spindleSetState R rpm_hz sendMode sendRpm sasr st state
      rpm).1.spindle_data.state_programmed.on' = state.on' ∧
    (spindleSetState R rpm_hz sendMode sendRpm sasr st state
      rpm).1.spindle_data.state_programmed.ccw = state.ccw ∧
    (spindleSetState R rpm_hz sendMode sendRpm sasr st state
      rpm).1.spindle_data.rpm_programmed =
      (if st.vfd_state.ccw ≠ state.ccw then -1
        else st.spindle_data.rpm_programmed) ∧
    (spindleSetState R rpm_hz sendMode sendRpm sasr st state
      rpm).2.vfd_failed_count = 1 ∧
    (∀ msg ∈ (spindleSetState R rpm_hz sendMode sendRpm sasr st state
      rpm).2.sent, msg.context = vfd_response_t.VFD_SetStatus) := by
  rw [spindleSetState_all_fail_eq R rpm_hz sendMode sendRpm sasr st state rpm
    hg hf]
  refine ⟨rfl, rfl, rfl, rfl, rfl, rfl, ?_⟩
  intro msg hmsg
  have := List.eq_of_mem_replicate hmsg
  rw [this]

/-- C9 witness: `spindleSetState_frame` at a concrete direction-changing
request from an idle driver state. -/
theorem spindleSetState_frame_witness :
    (spindleSetState 2 60 (fun _ => false) (fun _ => false) (fun d _ => d)
      ⟨0, 0, 0, ⟨false, false, false⟩, ⟨500, ⟨false, false, false⟩, false⟩, 0⟩
      ⟨true, true, false⟩ 1200).1.vfd_state.on' =
        (⟨true, true, false⟩ : spindle_state_t).on' ∧
    (spindleSetState 2 60 (fun _ => false) (fun _ => false) (fun d _ => d)
      ⟨0, 0, 0, ⟨false, false, false⟩, ⟨500, ⟨false, false, false⟩, false⟩, 0⟩
      ⟨true, true, false⟩ 1200).1.vfd_state.ccw =
        (⟨true, true, false⟩ : spindle_state_t).ccw ∧
    (spindleSetState 2 60 (fun _ => false) (fun _ => false) (fun d _ => d)
      ⟨0, 0, 0, ⟨false, false, false⟩, ⟨500, ⟨false, false, false⟩, false⟩, 0⟩
      ⟨true, true, false⟩ 1200).1.spindle_data.state_programmed.on' =
        (⟨true, true, false⟩ : spindle_state_t).on' ∧
    (spindleSetState 2 60 (fun _ => false) (fun _ => false) (fun d _ => d)
      ⟨0, 0, 0, ⟨false, false, false⟩, ⟨500, ⟨false, false, false⟩, false⟩, 0⟩
      ⟨true, true, false⟩ 1200).1.spindle_data.state_programmed.ccw =
        (⟨true, true, false⟩ : spindle_state_t).ccw ∧
    (spindleSetState 2 60 (fun _ => false) (fun _ => false) (fun d _ => d)
      ⟨0, 0, 0, ⟨false, false, false⟩, ⟨500, ⟨false, false, false⟩, false⟩, 0⟩
      ⟨true, true, false⟩ 1200).1.spindle_data.rpm_programmed =
      (if (⟨0, 0, 0, ⟨false, false, false⟩,
          ⟨500, ⟨false, false, false⟩, false⟩, 0⟩ : YlState).vfd_state.ccw ≠
          (⟨true, true, false⟩ : spindle_state_t).ccw then -1
        else (⟨0, 0, 0, ⟨false, false, false⟩,
          ⟨500, ⟨false, false, false⟩, false⟩,
          0⟩ : YlState).spindle_data.rpm_programmed) ∧
    (spindleSetState 2 60 (fun _ => false) (fun _ => false) (fun d _ => d)
      ⟨0, 0, 0, ⟨false, false, false⟩, ⟨500, ⟨false, false, false⟩, false⟩, 0⟩
      ⟨true, true, false⟩ 1200).2.vfd_failed_count = 1 ∧
    (∀ msg ∈ (spindleSetState 2 60 (fun _ => false) (fun _ => false)
      (fun d _ => d)
      ⟨0, 0, 0, ⟨false, false, false⟩, ⟨500, ⟨false, false, false⟩, false⟩, 0⟩
      ⟨true, true, false⟩ 1200).2.sent,
      msg.context = vfd_response_t.VFD_SetStatus) :=
  spindleSetState_frame 2 60 (fun _ => false) (fun _ => false) (fun d _ => d)
    ⟨0, 0, 0, ⟨false, false, false⟩, ⟨500, ⟨false, false, false⟩, false⟩, 0⟩
    ⟨true, true, false⟩ 1200 rfl (fun _ => rfl)

/-! ## `rx_exception` and `rx_packet` -/

/-- C5 (corrected): full case behaviour of `rx_exception` outside cold
start.  A set-rpm-context exception increments the (16-bit) retry counter
and triggers exactly one non-blocking retry of the speed request with the
last programmed rpm clamped to non-negative; a get-rpm-context exception,
and ALSO every other recognized context (set-status, get-max-rpm), leaves
the counter unchanged and sends nothing (the code's `default:` case is
empty — it does NOT increment, contrary to the claim); after the switch, if
the counter has reached the retry bound a spindle alarm is raised and the
counter is reset; an unrecognized (idle/null) context resets the counter and
raises the alarm immediately; during cold start `vfd_failed` is raised
instead. -/
theorem rx_exception_spec (R rpm_hz : Nat) (send : Nat → Bool)
    (sasr : spindle_data_t → ℚ → spindle_data_t) (st : YlState) :
    (∀ context, rx_exception R rpm_hz send sasr true st context =
      (st, { no_effects with vfd_failed_count := 1 })) ∧
    (∀ context, (context = vfd_response_t.VFD_GetRPM ∨
        context = vfd_response_t.VFD_GetMaxRPM ∨
        context = vfd_response_t.VFD_SetStatus) →
      rx_exception R rpm_hz send sasr false st context =
        (if R ≤ st.retry_counter then
          ({ st with retry_counter := 0 }, { no_effects with alarm_count := 1 })
        else (st, no_effects))) ∧
    (rx_exception R rpm_hz send sasr false st vfd_response_t.VFD_Idle =
      ({ st with retry_counter := 0 }, { no_effects with alarm_count := 1 })) ∧
    (st.setrpm_retries = 0 →
      (rx_exception R rpm_hz send sasr false st
        vfd_response_t.VFD_SetRPM).2.sent =
        [⟨vfd_response_t.VFD_SetRPM,
          rpm_register_value rpm_hz (max st.spindle_data.rpm_programmed 0),
          false⟩] ∧
      (rx_exception R rpm_hz send sasr false st
        vfd_response_t.VFD_SetRPM).1.retry_counter =
        (if R ≤ (st.retry_counter + 1) % 65536 then 0
          else (st.retry_counter + 1) % 65536) ∧
      (rx_exception R rpm_hz send sasr false st
        vfd_response_t.VFD_SetRPM).2.alarm_count =
        (if R ≤ (st.retry_counter + 1) % 65536 then 1 else 0)) := by
  refine ⟨?_, ?_, ?_, ?_⟩
  · intro context
    rfl
  · rintro context (rfl | rfl | rfl) <;>
      · by_cases hR : R ≤ st.retry_counter
        · simp [rx_exception, hR, no_effects]
        · simp [rx_exception, hR]
  · by_cases hR : R ≤ st.retry_counter <;> simp [rx_exception, no_effects]
  · intro hg
    have hrw := spindleSetRPM_nonblock_eq R rpm_hz send sasr
      { st with retry_counter := (st.retry_counter + 1) % 65536 }
      (max ({ st with
        retry_counter := (st.retry_counter + 1) % 65536 } :
          YlState).spindle_data.rpm_programmed 0) (by simpa using hg)
    by_cases hR : R ≤ (st.retry_counter + 1) % 65536
    · simp only [rx_exception, hrw]
      simp [hR]
    · simp only [rx_exception, hrw]
      simp [hR]

/-- C5 witness-free counterexample: a recognized but non-set-rpm context
(set-status) with the counter at 0 and bound 5: after the exception the
counter is still 0, not incremented to 1 as the claim requires. -/
theorem rx_exception_no_increment_counterexample :
    (rx_exception 5 60 (fun _ => true) (fun d _ => d) false
      ⟨0, 0, 0, ⟨false, false, false⟩, ⟨100, ⟨false, false, false⟩, false⟩, 0⟩
      vfd_response_t.VFD_SetStatus).1.retry_counter = 0 ∧
    ((0 : Nat) ≠ 0 + 1) := by
  refine ⟨rfl, by decide⟩

/-- C6 (corrected): a reply whose first status byte has the top bit set is
ignored entirely: `rx_packet` decodes nothing, updates no state or rpm
field, raises no alarm — and in particular does NOT reset the retry counter
(the whole body, including every `retry_counter = 0` assignment, is inside
the top-bit-clear branch).  The state is returned completely unchanged. -/
theorem rx_packet_error_reply
    (validate_at_speed : spindle_data_t → ℚ → spindle_data_t) (rpm_hz : Nat)
    (st : YlState) (msg : modbus_reply) (h : msg.adu0 &&& 0x80 ≠ 0) :
    rx_packet validate_at_speed rpm_hz st msg = st := by
  simp only [rx_packet]
  rw [if_neg h]

/-- C6 witness: `rx_packet_error_reply` at a concrete error reply. -/
theorem rx_packet_error_reply_witness :
    rx_packet (fun d _ => d) 60
      ⟨3, 0, 0, ⟨false, false, false⟩, ⟨0, ⟨false, false, false⟩, false⟩, 0⟩
      ⟨0x83, 3, 0, 0, 0, 0, vfd_response_t.VFD_SetRPM⟩ =
      ⟨3, 0, 0, ⟨false, false, false⟩, ⟨0, ⟨false, false, false⟩, false⟩, 0⟩ :=
  rx_packet_error_reply (fun d _ => d) 60
    ⟨3, 0, 0, ⟨false, false, false⟩, ⟨0, ⟨false, false, false⟩, false⟩, 0⟩
    ⟨0x83, 3, 0, 0, 0, 0, vfd_response_t.VFD_SetRPM⟩ (by decide)

/-- C6 counterexample: an error reply (first byte 0x80) delivered while the
retry counter is 3 leaves the counter at 3 — it is NOT reset to zero as the
claim states. -/
theorem rx_packet_error_reply_counterexample :
    (rx_packet (fun d _ => d) 60
      ⟨3, 0, 0, ⟨false, false, false⟩, ⟨0, ⟨false, false, false⟩, false⟩, 0⟩
      ⟨0x80, 3, 0, 0, 0, 0, vfd_response_t.VFD_SetRPM⟩).retry_counter = 3 ∧
    ((3 : Nat) ≠ 0) := by
  refine ⟨rfl, by decide⟩

/-! ## `spindle_select_get_binding` -/

theorem bindingScan_none (s : BindingTable) (id : Int) :
    ∀ n, (∀ i, i < n → (s i).spindle_id ≠ id) → bindingScan s id n = none := by
  intro n
  induction n with
  | zero => intro _; rfl
  | succ m ih =>
    intro h
    simp only [bindingScan]
    rw [if_neg (h m (Nat.lt_succ_self m)), ih (fun i hi => h i (Nat.lt_succ_of_lt hi))]

theorem bindingScan_found (s : BindingTable) (id : Int) :
    ∀ n m, m < n → (s m).spindle_id = id →
      ∃ mm, bindingScan s id n = some mm ∧ mm < n ∧ (s mm).spindle_id = id ∧
        ∀ l, mm < l → l < n → (s l).spindle_id ≠ id := by
  intro n
  induction n with
  | zero => intro m hm; omega
  | succ k ih =>
    intro m hm he
    by_cases hk : (s k).spindle_id = id
    · refine ⟨k, ?_, Nat.lt_succ_self k, hk, ?_⟩
      · simp only [bindingScan]
        rw [if_pos hk]
      · intro l hl hl'
        omega
    · have hm' : m < k := by
        rcases Nat.lt_succ_iff_lt_or_eq.mp hm with h | h
        · exact h
        · subst h; exact absurd he hk
      obtain ⟨mm, hscan, hmm, hmme, hmax⟩ := ih m hm' he
      refine ⟨mm, ?_, Nat.lt_succ_of_lt hmm, hmme, ?_⟩
      · simp only [bindingScan]
        rw [if_neg hk, hscan]
      · intro l hl hl'
        rcases Nat.lt_succ_iff_lt_or_eq.mp hl' with h | h
        · exact hmax l hl h
        · subst h; exact hk

/-- C10 (confirmed): `spindle_select_get_binding` returns slot 0 whenever
the queried id equals the configured default spindle type, regardless of the
table; returns −1 for every negative id (which can never equal the unsigned
default type); and otherwise scans slots `N_SPINDLE-1 .. 0` and returns the
highest slot bound to the id, or −1 when no scanned slot is bound to it. -/
theorem spindle_select_get_binding_spec (N dflt : Nat) (s : BindingTable)
    (id : Int) (hN : 1 ≤ N) :
    (id = (dflt : Int) → spindle_select_get_binding N dflt s id = 0) ∧
    (id < 0 → spindle_select_get_binding N dflt s id = -1) ∧
    (0 ≤ id → id ≠ (dflt : Int) →
      ((∀ i, i < N → (s i).spindle_id ≠ id) →
        spindle_select_get_binding N dflt s id = -1) ∧
      (∀ m, m < N → (s m).spindle_id = id →
        ∃ mm, mm < N ∧ (s mm).spindle_id = id ∧
          (∀ l, mm < l → l < N → (s l).spindle_id ≠ id) ∧
          spindle_select_get_binding N dflt s id = (mm : Int))) := by
  refine ⟨?_, ?_, ?_⟩
  · intro h
    simp only [spindle_select_get_binding]
    rw [if_pos h]
  · intro h
    simp only [spindle_select_get_binding]
    rw [if_neg (show ¬id = (dflt : Int) from fun he => by
        rw [he] at h
        exact absurd (Int.natCast_nonneg dflt) (not_le.mpr h)),
      if_neg (not_le.mpr h)]
  · intro h0 hne
    constructor
    · intro hnone
      simp only [spindle_select_get_binding]
      rw [if_neg hne, if_pos h0, bindingScan_none s id N hnone]
    · intro m hm he
      obtain ⟨mm, hscan, hmm, hmme, hmax⟩ := bindingScan_found s id N m hm he
      refine ⟨mm, hmm, hmme, hmax, ?_⟩
      simp only [spindle_select_get_binding]
      rw [if_neg hne, if_pos h0, hscan]

/-- C10 witness: `spindle_select_get_binding_spec` at `N_SPINDLE = 8`,
default type 0, a concrete table, and id 2 (bound at slots 1 and 4: the
call returns the highest, slot 4). -/
theorem spindle_select_get_binding_spec_witness :
    ((2 : Int) = ((0 : Nat) : Int) →
      spindle_select_get_binding 8 0
        (tableOfList [⟨0, 0⟩, ⟨2, 0⟩, ⟨-1, 0⟩, ⟨-1, 0⟩, ⟨2, 0⟩]) 2 = 0) ∧
    ((2 : Int) < 0 →
      spindle_select_get_binding 8 0
        (tableOfList [⟨0, 0⟩, ⟨2, 0⟩, ⟨-1, 0⟩, ⟨-1, 0⟩, ⟨2, 0⟩]) 2 = -1) ∧
    (0 ≤ (2 : Int) → (2 : Int) ≠ ((0 : Nat) : Int) →
      ((∀ i, i < 8 →
          (tableOfList [⟨0, 0⟩, ⟨2, 0⟩, ⟨-1, 0⟩, ⟨-1, 0⟩, ⟨2, 0⟩]
            i).spindle_id ≠ 2) →
        spindle_select_get_binding 8 0
          (tableOfList [⟨0, 0⟩, ⟨2, 0⟩, ⟨-1, 0⟩, ⟨-1, 0⟩, ⟨2, 0⟩]) 2 = -1) ∧
      (∀ m, m < 8 →
        (tableOfList [⟨0, 0⟩, ⟨2, 0⟩, ⟨-1, 0⟩, ⟨-1, 0⟩, ⟨2, 0⟩]
          m).spindle_id = 2 →
        ∃ mm, mm < 8 ∧
          (tableOfList [⟨0, 0⟩, ⟨2, 0⟩, ⟨-1, 0⟩, ⟨-1, 0⟩, ⟨2, 0⟩]
            mm).spindle_id = 2 ∧
          (∀ l, mm < l → l < 8 →
            (tableOfList [⟨0, 0⟩, ⟨2, 0⟩, ⟨-1, 0⟩, ⟨-1, 0⟩, ⟨2, 0⟩]
              l).spindle_id ≠ 2) ∧
          spindle_select_get_binding 8 0
            (tableOfList [⟨0, 0⟩, ⟨2, 0⟩, ⟨-1, 0⟩, ⟨-1, 0⟩, ⟨2, 0⟩]) 2 =
              (mm : Int))) :=
  spindle_select_get_binding_spec 8 0
    (tableOfList [⟨0, 0⟩, ⟨2, 0⟩, ⟨-1, 0⟩, ⟨-1, 0⟩, ⟨2, 0⟩]) 2 (by decide)
